import Mathlib

/-! # GomokuMatchMaker: the match queue and the matching loop

A shallow embedding of `GomokuMatchMaker/GomokuMatchMaker/MatchMaker.cpp`.

* `StdMap V` embeds `std::map<std::string, V>`: the entries in iteration order, with
  `find`, `assign` (`m[k] = v`), `erase` and `size`.  `StdMap.Ordered` is the
  representation invariant of the container (keys strictly ascending).
* `PlayerSession` is the object behind a `std::shared_ptr<PlayerSession>`.
* `MatchMaker.RequestMatch`, `MatchMaker.CreatePlayerSessions`,
  `MatchMaker.DoMatchMakingIteration` (one pass through the body of the
  `while (true)` loop of `DoMatchMaking`) and `MatchMaker.PlayerLogin` follow the
  member functions of the same names statement by statement.  Everything the
  matchmaker does besides computing (locks, map accesses of the loop, liveness
  checks, GameLift requests, notifications, console output, sleeping) is recorded,
  in program order, in a list of `Event`s.
-/

namespace GomokuMatchMaker

/-! ## Definitions -/

/-- The comparison `std::less<std::string>` of the map: lexicographic order of the characters. -/
abbrev keyLess (a b : String) : Prop := a.toList < b.toList

/-- The iterator walk of `m.find(k)` over the entries: the value of the entry with key `k`. -/
def findEntries {V : Type} (k : String) : List (String × V) → Option V
  | [] => none
  | e :: rest => if k = e.1 then some e.2 else findEntries k rest

/-- The entries after `m[k] = v`: the entry of `k` is overwritten if there is one, and is
inserted at its place in key order otherwise. -/
def assignEntries {V : Type} (k : String) (v : V) : List (String × V) → List (String × V)
  | [] => [(k, v)]
  | e :: rest =>
    if keyLess k e.1 then (k, v) :: e :: rest
    else if k = e.1 then (k, v) :: rest
    else e :: assignEntries k v rest

/-- The entries after `m.erase(k)`: the entry of `k` is dropped if there is one. -/
def eraseEntries {V : Type} (k : String) : List (String × V) → List (String × V)
  | [] => []
  | e :: rest => if k = e.1 then rest else e :: eraseEntries k rest

/-- The keys of an entry list are strictly ascending. -/
abbrev Ascending {V : Type} (l : List (String × V)) : Prop :=
  l.Pairwise (fun a b => keyLess a.1 b.1)

/-- A `std::map<std::string, V>`, given by its entries in iteration order: `begin()` is at the
head of the list and `++it` moves to the next element. -/
structure StdMap (V : Type) where
  entries : List (String × V)
deriving DecidableEq

namespace StdMap

variable {V : Type}

/-- The representation invariant of `std::map`: the keys are strictly ascending, so no key
occurs twice. -/
abbrev Ordered (m : StdMap V) : Prop := Ascending m.entries

/-- A default-constructed `std::map`. -/
def empty : StdMap V := ⟨[]⟩

/-- The call `m.size()`. -/
def size (m : StdMap V) : Nat := m.entries.length

/-- The call `m.find(k)`: `none` stands for `m.end()`, `some v` for an iterator whose
`second` is `v`. -/
def find (m : StdMap V) (k : String) : Option V := findEntries k m.entries

/-- The statement `m[k] = v`. -/
def assign (m : StdMap V) (k : String) (v : V) : StdMap V := ⟨assignEntries k v m.entries⟩

/-- The call `m.erase(k)`. -/
def erase (m : StdMap V) (k : String) : StdMap V := ⟨eraseEntries k m.entries⟩

end StdMap

/-- Modelled from the spec: the class `PlayerSession` (PlayerSession.h is not among the
sources), the spec's PlayerHandle: "identity, liveness check, score, and a method to deliver
match results".  `id` is the identity of the object a `std::shared_ptr<PlayerSession>` points
to; the other fields are what `GetPlayerName()`, `GetPlayerScore()` and `IsConnected()` return
when called on it. -/
structure PlayerSession where
  id : Nat
  mPlayerName : String
  mPlayerScore : Int
  mConnected : Bool
deriving DecidableEq

namespace PlayerSession

/-- The call `psess->GetPlayerName()`. -/
def GetPlayerName (psess : PlayerSession) : String := psess.mPlayerName

/-- The call `psess->GetPlayerScore()`. -/
def GetPlayerScore (psess : PlayerSession) : Int := psess.mPlayerScore

/-- The call `psess->IsConnected()`. -/
def IsConnected (psess : PlayerSession) : Bool := psess.mConnected

/-- The call `psess->SetPlayerInfo(name, score)`. -/
def SetPlayerInfo (psess : PlayerSession) (name : String) (score : Int) : PlayerSession :=
  { psess with mPlayerName := name, mPlayerScore := score }

end PlayerSession

/-- Modelled from the spec: the constant `MAX_PLAYER_PER_GAME` (SharedStruct.h is not among the
sources); the spec fixes "a fixed player-capacity of two". -/
def MAX_PLAYER_PER_GAME : Nat := 2

/-- Modelled from the spec: the member `mMatchMap` (MatchMaker.h is not among the sources), "a
mapping from player identity to PlayerHandle" kept in an "underlying ordered map". -/
abbrev MatchMap := StdMap PlayerSession

/-- Every entry of the queue is keyed by the player name of the session stored under it. -/
def WellKeyed (mMatchMap : MatchMap) : Prop :=
  ∀ e ∈ mMatchMap.entries, e.1 = e.2.GetPlayerName

instance (mMatchMap : MatchMap) : Decidable (WellKeyed mMatchMap) := by
  unfold WellKeyed
  infer_instance

/-- The request of `CreateGameSession`, with the fields the loop sets. -/
structure CreateGameSessionRequest where
  fleetId : String
  maximumPlayerSessionCount : Nat
deriving DecidableEq

/-- The game session of a successful `CreateGameSession`, with the fields the loop reads. -/
structure GameSession where
  port : Int
  ipAddress : String
  gameSessionId : String
deriving DecidableEq

/-- The request of `CreatePlayerSessions`, with the fields `MatchMaker::CreatePlayerSessions`
sets. -/
structure CreatePlayerSessionsRequest where
  gameSessionId : String
  playerIds : List String
  playerDataMap : StdMap String
deriving DecidableEq

/-- One player session of a successful `CreatePlayerSessions`: the player it was created for and
the player session id GameLift issued. -/
structure PlayerSessionInfo where
  playerId : String
  playerSessionId : String
deriving DecidableEq

/-- The GameLift client `mGLClient`: what each of the two requests answers, an error (its
exception name) or a result. -/
structure GameLiftClient where
  CreateGameSession : CreateGameSessionRequest → Except String GameSession
  CreatePlayerSessions : CreatePlayerSessionsRequest → Except String (List PlayerSessionInfo)

/-- What the matchmaker does besides computing, in program order. -/
inductive Event where
  -- mMatchLock.EnterReadLock() / LeaveReadLock() / EnterWriteLock() / LeaveWriteLock()
  | EnterReadLock
  | LeaveReadLock
  | EnterWriteLock
  | LeaveWriteLock
  -- the block of lines 113-119: the size check and the copy of the two handles
  | CopyPair
  -- mMatchMap.erase(key)
  | Erase (key : String)
  -- player->IsConnected()
  | IsConnected (player : PlayerSession)
  -- mGLClient->CreateGameSession(req)
  | CreateGameSession (req : CreateGameSessionRequest)
  -- mGLClient->CreatePlayerSessions(req)
  | CreatePlayerSessions (req : CreatePlayerSessionsRequest)
  -- player->SendMatchInfo(port, ipAddress, psessId)
  | SendMatchInfo (player : PlayerSession) (port : Int) (ipAddress : String) (psessId : String)
  -- std::cout << text
  | StdOut (text : String)
  -- GConsoleLog->PrintOut(true, ...), with the formatted text
  | ConsoleLog (text : String)
  -- Sleep(ms)
  | Sleep (ms : Nat)
deriving DecidableEq

/-- A call `player->SendMatchInfo(port, ipAddress, psessId)`. -/
structure MatchInfo where
  player : PlayerSession
  port : Int
  ipAddress : String
  psessId : String
deriving DecidableEq

/-- The match notifications of a trace, in order. -/
def notifications : List Event → List MatchInfo
  | [] => []
  | Event.SendMatchInfo player port ipAddress psessId :: rest =>
    ⟨player, port, ipAddress, psessId⟩ :: notifications rest
  | _ :: rest => notifications rest

/-- The `CreateGameSession` requests of a trace, in order. -/
def createGameSessionCalls : List Event → List CreateGameSessionRequest
  | [] => []
  | Event.CreateGameSession req :: rest => req :: createGameSessionCalls rest
  | _ :: rest => createGameSessionCalls rest

/-- The `CreatePlayerSessions` requests of a trace, in order. -/
def createPlayerSessionsCalls : List Event → List CreatePlayerSessionsRequest
  | [] => []
  | Event.CreatePlayerSessions req :: rest => req :: createPlayerSessionsCalls rest
  | _ :: rest => createPlayerSessionsCalls rest

/-- The error reports of a trace (`GConsoleLog->PrintOut`), in order. -/
def errorReports : List Event → List String
  | [] => []
  | Event.ConsoleLog text :: rest => text :: errorReports rest
  | _ :: rest => errorReports rest

/-- The keys of the `mMatchMap.erase` calls of a trace, in order. -/
def erasedKeys : List Event → List String
  | [] => []
  | Event.Erase key :: rest => key :: erasedKeys rest
  | _ :: rest => erasedKeys rest

/-- Some notification of the trace goes to a player named `name`. -/
def notified (name : String) (trace : List Event) : Prop :=
  ∃ info ∈ notifications trace, info.player.GetPlayerName = name

instance (name : String) (trace : List Event) : Decidable (notified name trace) := by
  unfold notified
  infer_instance

namespace MatchMaker

/-- The member function `MatchMaker::RequestMatch` (lines 87-100): the returned flag and
`mMatchMap` afterwards.
The guard `FastSpinlockGuard lock(mMatchLock)` holds the lock for the whole body. -/
def RequestMatch (mMatchMap : MatchMap) (psess : PlayerSession) : Bool × MatchMap :=
  -- auto it = mMatchMap.find(psess->GetPlayerName());
  let it := mMatchMap.find psess.GetPlayerName
  -- if (it == mMatchMap.end())
  if it = none then
    -- mMatchMap[psess->GetPlayerName()] = psess; return true;
    (true, mMatchMap.assign psess.GetPlayerName psess)
  else
    -- return false;
    (false, mMatchMap)

/-- The request `MatchMaker::CreatePlayerSessions` builds (lines 180-190): the game session id,
the two player names in order, and the score map. -/
def playerSessionsRequest (player1 player2 : PlayerSession) (gsId : String) :
    CreatePlayerSessionsRequest :=
  -- playerNames.push_back(player1->GetPlayerName()); playerNames.push_back(player2->...);
  let playerNames : List String := [player1.GetPlayerName, player2.GetPlayerName]
  -- scoreMap[player1->GetPlayerName()] = std::to_string(player1->GetPlayerScore()); ...
  let scoreMap : StdMap String :=
    ((StdMap.empty.assign player1.GetPlayerName (toString player1.GetPlayerScore)).assign
      player2.GetPlayerName (toString player2.GetPlayerScore))
  { gameSessionId := gsId, playerIds := playerNames, playerDataMap := scoreMap }

/-- The member function `MatchMaker::CreatePlayerSessions` (lines 178-199): the events of the
call. -/
def CreatePlayerSessions (mGLClient : GameLiftClient) (player1 player2 : PlayerSession)
    (ipAddress gsId : String) (port : Int) : List Event :=
  let req := playerSessionsRequest player1 player2 gsId
  -- auto result = mGLClient->CreatePlayerSessions(req);   (never read afterwards)
  let _result := mGLClient.CreatePlayerSessions req
  -- auto player1SessionId = player1->GetPlayerName();
  let player1SessionId := player1.GetPlayerName
  -- auto player2SessionId = player2->GetPlayerName();
  let player2SessionId := player2.GetPlayerName
  -- player1->SendMatchInfo(port, ipAddress, player1SessionId); player2->SendMatchInfo(...);
  [Event.CreatePlayerSessions req,
   Event.SendMatchInfo player1 port ipAddress player1SessionId,
   Event.SendMatchInfo player2 port ipAddress player2SessionId]

/-- The request the loop builds at lines 142-144. -/
def gameSessionRequest : CreateGameSessionRequest :=
  { fleetId := "Fleet-123", maximumPlayerSessionCount := MAX_PLAYER_PER_GAME }

/-- Lines 113-119 of `DoMatchMaking`: the two handles copied out of the queue under the read
lock; `none` is a `shared_ptr` left empty. -/
def samplePair (mMatchMap : MatchMap) : Option PlayerSession × Option PlayerSession :=
  -- if (mMatchMap.size() >= MAX_PLAYER_PER_GAME)
  if mMatchMap.size ≥ MAX_PLAYER_PER_GAME then
    -- auto it = mMatchMap.begin(); player1 = it->second; ++it; player2 = it->second;
    (mMatchMap.entries[0]?.map Prod.snd, mMatchMap.entries[1]?.map Prod.snd)
  else
    (none, none)

/-- One pass through the body of the `while (true)` loop of `MatchMaker::DoMatchMaking`
(lines 109-171): `mMatchMap` afterwards and the events of the pass.  The two `continue`
statements end the pass before `Sleep(100)`. -/
def DoMatchMakingIteration (mGLClient : GameLiftClient) (mMatchMap : MatchMap) :
    MatchMap × List Event :=
  let sampling : List Event := [Event.EnterReadLock, Event.CopyPair, Event.LeaveReadLock]
  match samplePair mMatchMap with
  | (some player1, some player2) =>
    -- if (!player1->IsConnected())
    if !player1.IsConnected then
      (mMatchMap.erase player1.GetPlayerName,
        sampling ++ [Event.IsConnected player1, Event.EnterWriteLock,
          Event.Erase player1.GetPlayerName, Event.LeaveWriteLock])
    -- if (!player2->IsConnected())
    else if !player2.IsConnected then
      (mMatchMap.erase player2.GetPlayerName,
        sampling ++ [Event.IsConnected player1, Event.IsConnected player2, Event.EnterWriteLock,
          Event.Erase player2.GetPlayerName, Event.LeaveWriteLock])
    else
      let req := gameSessionRequest
      -- auto outcome = mGLClient->CreateGameSession(req);
      let provisioning : List Event :=
        match mGLClient.CreateGameSession req with
        | Except.ok gs =>
          Event.StdOut "CreatePlayerSessions on Created Game Session\n" ::
            CreatePlayerSessions mGLClient player1 player2 gs.ipAddress gs.gameSessionId gs.port
        | Except.error exceptionName =>
          [Event.ConsoleLog ("CreateGameSession error: " ++ exceptionName ++ "\n")]
      -- mMatchMap.erase(player1->GetPlayerName()); mMatchMap.erase(player2->GetPlayerName());
      ((mMatchMap.erase player1.GetPlayerName).erase player2.GetPlayerName,
        sampling ++ [Event.IsConnected player1, Event.IsConnected player2,
          Event.CreateGameSession req] ++ provisioning ++
          [Event.EnterWriteLock, Event.Erase player1.GetPlayerName,
           Event.Erase player2.GetPlayerName, Event.LeaveWriteLock, Event.Sleep 100])
  | _ =>
    -- if (player1 && player2) fails
    (mMatchMap, sampling ++ [Event.Sleep 100])

/-- The member function `MatchMaker::PlayerLogin` (lines 202-215): the returned flag and the
session afterwards.
`std::string::size()` counts the bytes of the string; the hash of the password is computed and
never read. -/
def PlayerLogin (psess : PlayerSession) (playerName playerPass : String) :
    Bool × PlayerSession :=
  if playerName.utf8ByteSize < 3 ∨ playerPass.utf8ByteSize < 3 then
    (false, psess)
  else
    let score : Int := 98
    (true, psess.SetPlayerInfo playerName score)

end MatchMaker

/-- What happens around the queue, one step at a time: a caller runs `RequestMatch`, the
matching thread runs one pass of its loop, or the transport layer changes the session objects
the queued handles point to (they disconnect, their score is set). -/
inductive Action where
  | RequestMatch (psess : PlayerSession)
  | Iterate (mGLClient : GameLiftClient)
  | Transport (update : PlayerSession → PlayerSession)

/-- The action leaves the player name of every session as it is. -/
def Action.KeepsNames : Action → Prop
  | Action.Transport update => ∀ psess, (update psess).GetPlayerName = psess.GetPlayerName
  | _ => True

/-- The queue after one action. -/
def step (mMatchMap : MatchMap) : Action → MatchMap
  | Action.RequestMatch psess => (MatchMaker.RequestMatch mMatchMap psess).2
  | Action.Iterate mGLClient => (MatchMaker.DoMatchMakingIteration mGLClient mMatchMap).1
  | Action.Transport update => ⟨mMatchMap.entries.map (fun e => (e.1, update e.2))⟩

/-- The queue after a sequence of actions. -/
def run (mMatchMap : MatchMap) : List Action → MatchMap
  | [] => mMatchMap
  | a :: rest => run (step mMatchMap a) rest

/-- A pass at this queue samples a player named `name`. -/
def sampled (name : String) (mMatchMap : MatchMap) : Prop :=
  ∃ p₁ p₂, MatchMaker.samplePair mMatchMap = (some p₁, some p₂) ∧
    (p₁.GetPlayerName = name ∨ p₂.GetPlayerName = name)

/-- The session with its score blanked: what is left of a session when its score is not
looked at. -/
def PlayerSession.withoutScore (psess : PlayerSession) : PlayerSession :=
  { psess with mPlayerScore := 0 }

/-- The queue with the score of every queued session blanked. -/
def withoutScores (mMatchMap : MatchMap) : MatchMap :=
  ⟨mMatchMap.entries.map (fun e => (e.1, e.2.withoutScore))⟩

/-- The notification with the score of its recipient blanked; port, address and session id are
kept. -/
def MatchInfo.withoutScore (info : MatchInfo) : MatchInfo :=
  { info with player := info.player.withoutScore }

/-- The event with the scores blanked: the score of the session it is about, and the score map
of a `CreatePlayerSessions` request.  Everything else is kept. -/
def Event.withoutScores : Event → Event
  | Event.IsConnected player => Event.IsConnected player.withoutScore
  | Event.CreatePlayerSessions req =>
    Event.CreatePlayerSessions { req with playerDataMap := StdMap.empty }
  | Event.SendMatchInfo player port ipAddress psessId =>
    Event.SendMatchInfo player.withoutScore port ipAddress psessId
  | e => e

/-- How the matching thread holds `mMatchLock`. -/
inductive LockState where
  | Free
  | Read
  | Write
deriving DecidableEq

/-- The lock discipline along a trace, started with the lock held as given: the lock is taken
only when free and released only in the mode it is held in; under the read lock nothing
happens but the copy of the pair, under the write lock nothing but erase calls; liveness
checks, GameLift requests, notifications, output and sleeping happen with the lock free; and
the lock is free when the trace ends. -/
def lockDiscipline : LockState → List Event → Bool
  | held, [] => decide (held = LockState.Free)
  | held, Event.EnterReadLock :: rest =>
    decide (held = LockState.Free) && lockDiscipline LockState.Read rest
  | held, Event.LeaveReadLock :: rest =>
    decide (held = LockState.Read) && lockDiscipline LockState.Free rest
  | held, Event.EnterWriteLock :: rest =>
    decide (held = LockState.Free) && lockDiscipline LockState.Write rest
  | held, Event.LeaveWriteLock :: rest =>
    decide (held = LockState.Write) && lockDiscipline LockState.Free rest
  | held, Event.CopyPair :: rest =>
    decide (held = LockState.Read) && lockDiscipline held rest
  | held, Event.Erase _ :: rest =>
    decide (held = LockState.Write) && lockDiscipline held rest
  | held, Event.IsConnected _ :: rest =>
    decide (held = LockState.Free) && lockDiscipline held rest
  | held, Event.CreateGameSession _ :: rest =>
    decide (held = LockState.Free) && lockDiscipline held rest
  | held, Event.CreatePlayerSessions _ :: rest =>
    decide (held = LockState.Free) && lockDiscipline held rest
  | held, Event.SendMatchInfo _ _ _ _ :: rest =>
    decide (held = LockState.Free) && lockDiscipline held rest
  | held, Event.StdOut _ :: rest =>
    decide (held = LockState.Free) && lockDiscipline held rest
  | held, Event.ConsoleLog _ :: rest =>
    decide (held = LockState.Free) && lockDiscipline held rest
  | held, Event.Sleep _ :: rest =>
    decide (held = LockState.Free) && lockDiscipline held rest

/-- The lock as held after the events of a trace, started with the lock held as given. -/
def lockAfter : LockState → List Event → LockState
  | held, [] => held
  | _, Event.EnterReadLock :: rest => lockAfter LockState.Read rest
  | _, Event.EnterWriteLock :: rest => lockAfter LockState.Write rest
  | _, Event.LeaveReadLock :: rest => lockAfter LockState.Free rest
  | _, Event.LeaveWriteLock :: rest => lockAfter LockState.Free rest
  | held, _ :: rest => lockAfter held rest

/-- The event is a call that leaves the matchmaker: a liveness check, a GameLift request or a
match notification. -/
def Event.isOutsideCall : Event → Bool
  | Event.IsConnected _ => true
  | Event.CreateGameSession _ => true
  | Event.CreatePlayerSessions _ => true
  | Event.SendMatchInfo _ _ _ _ => true
  | _ => false

/-! ### Sample data -/

/-- A connected session named alice. -/
def alice : PlayerSession := ⟨1, "alice", 1200, true⟩

/-- A connected session named bob. -/
def bob : PlayerSession := ⟨2, "bob", 900, true⟩

/-- A disconnected session named bob. -/
def bobOffline : PlayerSession := ⟨2, "bob", 900, false⟩

/-- A queue holding alice and bob, both connected. -/
def aliceAndBob : MatchMap := ⟨[("alice", alice), ("bob", bob)]⟩

/-- A queue holding alice, connected, and bob, disconnected. -/
def aliceAndBobOffline : MatchMap := ⟨[("alice", alice), ("bob", bobOffline)]⟩

/-- A created game session. -/
def gsess : GameSession := ⟨7777, "10.0.0.1", "gsess-1"⟩

/-- A client whose two requests succeed; each player session id is "psess-" and the name. -/
def glBothOk : GameLiftClient :=
  ⟨fun _ => Except.ok gsess,
   fun req => Except.ok (req.playerIds.map (fun n => ⟨n, "psess-" ++ n⟩))⟩

/-- A client that creates the game session and then refuses the player sessions. -/
def glBindFails : GameLiftClient :=
  ⟨fun _ => Except.ok gsess, fun _ => Except.error "GameSessionFullException"⟩

/-- A client that refuses to create a game session. -/
def glCreateFails : GameLiftClient :=
  ⟨fun _ => Except.error "FleetCapacityExceededException",
   fun _ => Except.error "NotFoundException"⟩

/-- The transport layer marks a session as connected. -/
def reconnect (psess : PlayerSession) : PlayerSession := { psess with mConnected := true }

/-- Alice asks for a match, bob asks for one while disconnected, bob reconnects. -/
def aliceThenBob : List Action :=
  [Action.RequestMatch alice, Action.RequestMatch bobOffline, Action.Transport reconnect]

/-- A connected session named carol. -/
def carol : PlayerSession := ⟨3, "carol", 1500, true⟩

/-- A queue holding alice, bob and carol, all connected. -/
def aliceBobCarol : MatchMap := ⟨[("alice", alice), ("bob", bob), ("carol", carol)]⟩

/-- The queue holding alice and bob with other scores. -/
def aliceAndBobRescored : MatchMap :=
  ⟨[("alice", ⟨1, "alice", 5, true⟩), ("bob", ⟨2, "bob", -3, true⟩)]⟩

/-! ## Lemmas on the map -/

theorem keyLess_irrefl (a : String) : ¬ keyLess a a := lt_irrefl a.toList

theorem keyLess_trans {a b c : String} (h₁ : keyLess a b) (h₂ : keyLess b c) : keyLess a c :=
  lt_trans h₁ h₂

theorem keyLess_ne {a b : String} (h : keyLess a b) : a ≠ b := by
  intro hab
  subst hab
  exact keyLess_irrefl a h

theorem keyLess_of_not {a b : String} (h₁ : ¬ keyLess a b) (h₂ : a ≠ b) : keyLess b a := by
  rcases lt_trichotomy a.toList b.toList with h | h | h
  · exact absurd h h₁
  · exact absurd (String.ext h) h₂
  · exact h

theorem findEntries_eq_none {V : Type} {k : String} :
    ∀ {l : List (String × V)}, findEntries k l = none ↔ ∀ x ∈ l, x.1 ≠ k
  | [] => by simp [findEntries]
  | e :: rest => by
    have ih := findEntries_eq_none (V := V) (k := k) (l := rest)
    by_cases h : k = e.1
    · simp only [findEntries, if_pos h]
      constructor
      · intro hn
        cases hn
      · intro hall
        exact absurd h.symm (hall e (List.mem_cons_self _ _))
    · simp only [findEntries, if_neg h, ih, List.mem_cons, forall_eq_or_imp]
      constructor
      · intro hall
        exact ⟨fun he => h he.symm, hall⟩
      · intro hall
        exact hall.2

theorem mem_of_findEntries {V : Type} {k : String} {v : V} :
    ∀ {l : List (String × V)}, findEntries k l = some v → (k, v) ∈ l
  | [], h => by simp [findEntries] at h
  | e :: rest, h => by
    by_cases hk : k = e.1
    · simp only [findEntries, if_pos hk, Option.some.injEq] at h
      have he : e = (k, v) := Prod.ext hk.symm h
      exact he ▸ List.mem_cons_self _ _
    · simp only [findEntries, if_neg hk] at h
      exact List.mem_cons_of_mem _ (mem_of_findEntries h)

theorem findEntries_of_mem {V : Type} {k : String} {v : V} :
    ∀ {l : List (String × V)}, Ascending l → (k, v) ∈ l → findEntries k l = some v
  | [], _, h => by simp at h
  | e :: rest, hasc, h => by
    have hhead := (List.pairwise_cons.1 hasc).1
    have htail := (List.pairwise_cons.1 hasc).2
    rcases List.mem_cons.1 h with h | h
    · subst h
      simp [findEntries]
    · have hne : k ≠ e.1 := fun hk => keyLess_ne (hhead _ h) hk.symm
      simp only [findEntries, if_neg hne]
      exact findEntries_of_mem htail h

theorem findEntries_assignEntries {V : Type} (k k' : String) (v : V) :
    ∀ l : List (String × V),
      findEntries k' (assignEntries k v l) = if k' = k then some v else findEntries k' l
  | [] => by simp [assignEntries, findEntries]
  | e :: rest => by
    have ih := findEntries_assignEntries k k' v rest
    by_cases h₁ : keyLess k e.1
    · simp only [assignEntries, if_pos h₁]
      by_cases h₃ : k' = k
      · simp only [findEntries, if_pos h₃]
      · simp only [findEntries, if_neg h₃]
    · by_cases h₂ : k = e.1
      · simp only [assignEntries, if_neg h₁, if_pos h₂]
        by_cases h₃ : k' = k
        · simp only [findEntries, if_pos h₃]
        · have h₄ : k' ≠ e.1 := fun h => h₃ (h.trans h₂.symm)
          simp only [findEntries, if_neg h₃, if_neg h₄]
      · simp only [assignEntries, if_neg h₁, if_neg h₂]
        by_cases h₃ : k' = k
        · have h₄ : k' ≠ e.1 := fun h => h₂ (h₃.symm.trans h)
          simp only [findEntries, if_neg h₄, ih, if_pos h₃]
        · simp only [findEntries, ih, if_neg h₃]

theorem mem_assignEntries {V : Type} {k : String} {v : V} {x : String × V} :
    ∀ {l : List (String × V)}, x ∈ assignEntries k v l → x = (k, v) ∨ x ∈ l
  | [], h => by
    simp only [assignEntries, List.mem_singleton] at h
    exact Or.inl h
  | e :: rest, h => by
    simp only [assignEntries] at h
    split_ifs at h with h₁ h₂
    · rcases List.mem_cons.1 h with h | h
      · exact Or.inl h
      · exact Or.inr h
    · rcases List.mem_cons.1 h with h | h
      · exact Or.inl h
      · exact Or.inr (List.mem_cons_of_mem _ h)
    · rcases List.mem_cons.1 h with h | h
      · exact Or.inr (h ▸ List.mem_cons_self _ _)
      · rcases mem_assignEntries h with h | h
        · exact Or.inl h
        · exact Or.inr (List.mem_cons_of_mem _ h)

theorem ascending_assignEntries {V : Type} (k : String) (v : V) :
    ∀ {l : List (String × V)}, Ascending l → Ascending (assignEntries k v l)
  | [], _ => by simp [assignEntries, Ascending]
  | e :: rest, h => by
    have hhead := (List.pairwise_cons.1 h).1
    have htail := (List.pairwise_cons.1 h).2
    simp only [assignEntries]
    split_ifs with h₁ h₂
    · refine List.pairwise_cons.2 ⟨?_, h⟩
      intro x hx
      rcases List.mem_cons.1 hx with hx | hx
      · exact hx ▸ h₁
      · exact keyLess_trans h₁ (hhead x hx)
    · refine List.pairwise_cons.2 ⟨?_, htail⟩
      intro x hx
      exact h₂ ▸ hhead x hx
    · refine List.pairwise_cons.2 ⟨?_, ascending_assignEntries k v htail⟩
      intro x hx
      rcases mem_assignEntries hx with hx | hx
      · exact hx ▸ keyLess_of_not h₁ h₂
      · exact hhead x hx

theorem perm_assignEntries {V : Type} (k : String) (v : V) :
    ∀ {l : List (String × V)}, findEntries k l = none →
      (assignEntries k v l).Perm ((k, v) :: l)
  | [], _ => by simp [assignEntries]
  | e :: rest, h => by
    have hne : k ≠ e.1 := fun hk => by simp [findEntries, hk] at h
    have hrest : findEntries k rest = none := by simpa [findEntries, hne] using h
    simp only [assignEntries, if_neg hne]
    split_ifs with h₁
    · exact List.Perm.refl _
    · exact ((perm_assignEntries k v hrest).cons e).trans (List.Perm.swap _ _ _)

theorem mem_of_mem_eraseEntries {V : Type} {k : String} {x : String × V} :
    ∀ {l : List (String × V)}, x ∈ eraseEntries k l → x ∈ l
  | [], h => by simp [eraseEntries] at h
  | e :: rest, h => by
    simp only [eraseEntries] at h
    split_ifs at h with h₁
    · exact List.mem_cons_of_mem _ h
    · rcases List.mem_cons.1 h with h | h
      · exact h ▸ List.mem_cons_self _ _
      · exact List.mem_cons_of_mem _ (mem_of_mem_eraseEntries h)

theorem ascending_eraseEntries {V : Type} (k : String) :
    ∀ {l : List (String × V)}, Ascending l → Ascending (eraseEntries k l)
  | [], _ => by simp [eraseEntries, Ascending]
  | e :: rest, h => by
    have hhead := (List.pairwise_cons.1 h).1
    have htail := (List.pairwise_cons.1 h).2
    simp only [eraseEntries]
    split_ifs with h₁
    · exact htail
    · refine List.pairwise_cons.2 ⟨?_, ascending_eraseEntries k htail⟩
      intro x hx
      exact hhead x (mem_of_mem_eraseEntries hx)

theorem findEntries_eraseEntries {V : Type} (k k' : String) :
    ∀ {l : List (String × V)}, Ascending l →
      findEntries k' (eraseEntries k l) = if k' = k then none else findEntries k' l
  | [], _ => by simp [eraseEntries, findEntries]
  | e :: rest, h => by
    have hhead := (List.pairwise_cons.1 h).1
    have htail := (List.pairwise_cons.1 h).2
    have ih := findEntries_eraseEntries k k' htail
    by_cases h₁ : k = e.1
    · simp only [eraseEntries, if_pos h₁]
      by_cases h₂ : k' = k
      · simp only [if_pos h₂]
        refine findEntries_eq_none.2 ?_
        intro x hx hxk
        exact keyLess_ne (hhead x hx) ((h₁.symm.trans h₂.symm).trans hxk.symm)
      · have h₃ : k' ≠ e.1 := fun h => h₂ (h.trans h₁.symm)
        simp [findEntries, h₂, h₃]
    · simp only [eraseEntries, if_neg h₁]
      by_cases h₂ : k' = e.1
      · have h₃ : k' ≠ k := fun h => h₁ (h.symm.trans h₂)
        simp only [findEntries, if_pos h₂, if_neg h₃]
      · simp only [findEntries, if_neg h₂, ih]

theorem eraseEntries_of_absent {V : Type} {k : String} :
    ∀ {l : List (String × V)}, findEntries k l = none → eraseEntries k l = l
  | [], _ => rfl
  | e :: rest, h => by
    have hne : k ≠ e.1 := fun hk => by simp [findEntries, hk] at h
    have hrest : findEntries k rest = none := by simpa [findEntries, hne] using h
    simp [eraseEntries, hne, eraseEntries_of_absent hrest]

theorem length_eraseEntries {V : Type} {k : String} {v : V} :
    ∀ {l : List (String × V)}, findEntries k l = some v →
      (eraseEntries k l).length + 1 = l.length
  | [], h => by simp [findEntries] at h
  | e :: rest, h => by
    by_cases hk : k = e.1
    · simp [eraseEntries, hk]
    · have hrest : findEntries k rest = some v := by simpa [findEntries, hk] using h
      simp [eraseEntries, hk, length_eraseEntries hrest]

/-! ## `RequestMatch` -/

theorem RequestMatch_of_absent {mMatchMap : MatchMap} {psess : PlayerSession}
    (h : mMatchMap.find psess.GetPlayerName = none) :
    MatchMaker.RequestMatch mMatchMap psess =
      (true, mMatchMap.assign psess.GetPlayerName psess) := by
  simp [MatchMaker.RequestMatch, h]

theorem RequestMatch_of_present {mMatchMap : MatchMap} {psess : PlayerSession}
    (h : mMatchMap.find psess.GetPlayerName ≠ none) :
    MatchMaker.RequestMatch mMatchMap psess = (false, mMatchMap) := by
  simp [MatchMaker.RequestMatch, h]

/-- C1: `RequestMatch(psess)` returns true exactly when `mMatchMap` has no entry under the
player name of `psess`.  When it returns true the entries afterwards are the old entries plus
the one entry `name ↦ psess` (so every lookup is as before except under that name, where it
now finds `psess`); when it returns false the queue is unchanged, the queued handle
included. -/
theorem C1_RequestMatch_inserts_iff_absent (mMatchMap : MatchMap) (psess : PlayerSession) :
    ((MatchMaker.RequestMatch mMatchMap psess).1 = true ↔
        mMatchMap.find psess.GetPlayerName = none) ∧
    ((MatchMaker.RequestMatch mMatchMap psess).1 = true →
        (MatchMaker.RequestMatch mMatchMap psess).2.entries.Perm
          ((psess.GetPlayerName, psess) :: mMatchMap.entries) ∧
        ∀ k, (MatchMaker.RequestMatch mMatchMap psess).2.find k =
          if k = psess.GetPlayerName then some psess else mMatchMap.find k) ∧
    ((MatchMaker.RequestMatch mMatchMap psess).1 = false →
        (MatchMaker.RequestMatch mMatchMap psess).2 = mMatchMap) := by
  by_cases h : mMatchMap.find psess.GetPlayerName = none
  · rw [RequestMatch_of_absent h]
    refine ⟨by simp [h], fun _ => ⟨?_, ?_⟩, by simp⟩
    · exact perm_assignEntries _ _ h
    · intro k
      exact findEntries_assignEntries _ _ _ _
  · rw [RequestMatch_of_present h]
    simp [h]

/-- C2: when no entry is queued under the name `n`, two `RequestMatch` calls in a row with
handles named `n` (the same object or two different ones) return true and then false, and the
queue afterwards has exactly one entry more than at the start: the first handle, under `n`. -/
theorem C2_RequestMatch_twice (mMatchMap : MatchMap) (n : String) (psess₁ psess₂ : PlayerSession)
    (habsent : mMatchMap.find n = none)
    (h₁ : psess₁.GetPlayerName = n) (h₂ : psess₂.GetPlayerName = n) :
    (MatchMaker.RequestMatch mMatchMap psess₁).1 = true ∧
    (MatchMaker.RequestMatch (MatchMaker.RequestMatch mMatchMap psess₁).2 psess₂).1 = false ∧
    (MatchMaker.RequestMatch (MatchMaker.RequestMatch mMatchMap psess₁).2 psess₂).2.size =
      mMatchMap.size + 1 ∧
    (MatchMaker.RequestMatch (MatchMaker.RequestMatch mMatchMap psess₁).2 psess₂).2.find n =
      some psess₁ := by
  subst h₁
  have hfirst := RequestMatch_of_absent habsent
  have hfound : (mMatchMap.assign psess₁.GetPlayerName psess₁).find psess₂.GetPlayerName
      = some psess₁ := by
    rw [h₂]
    simp [StdMap.find, StdMap.assign, findEntries_assignEntries]
  have hsecond : MatchMaker.RequestMatch (mMatchMap.assign psess₁.GetPlayerName psess₁) psess₂
      = (false, mMatchMap.assign psess₁.GetPlayerName psess₁) :=
    RequestMatch_of_present (by rw [hfound]; simp)
  have hboth : MatchMaker.RequestMatch (MatchMaker.RequestMatch mMatchMap psess₁).2 psess₂
      = (false, mMatchMap.assign psess₁.GetPlayerName psess₁) := by
    rw [hfirst]
    exact hsecond
  rw [hboth, hfirst]
  refine ⟨rfl, rfl, ?_, ?_⟩
  · have := (perm_assignEntries psess₁.GetPlayerName psess₁ habsent).length_eq
    simpa [StdMap.size, StdMap.assign] using this
  · simp [StdMap.find, StdMap.assign, findEntries_assignEntries]

/-- C2 at a queue holding bob, with two different session objects both named alice. -/
theorem C2_RequestMatch_twice_witness :
    (MatchMaker.RequestMatch ⟨[("bob", ⟨2, "bob", 20, true⟩)]⟩ ⟨1, "alice", 10, true⟩).1 = true ∧
    (MatchMaker.RequestMatch
      (MatchMaker.RequestMatch ⟨[("bob", ⟨2, "bob", 20, true⟩)]⟩ ⟨1, "alice", 10, true⟩).2
      ⟨3, "alice", 30, true⟩).1 = false ∧
    (MatchMaker.RequestMatch
      (MatchMaker.RequestMatch ⟨[("bob", ⟨2, "bob", 20, true⟩)]⟩ ⟨1, "alice", 10, true⟩).2
      ⟨3, "alice", 30, true⟩).2.size = StdMap.size (V := PlayerSession)
        ⟨[("bob", ⟨2, "bob", 20, true⟩)]⟩ + 1 ∧
    (MatchMaker.RequestMatch
      (MatchMaker.RequestMatch ⟨[("bob", ⟨2, "bob", 20, true⟩)]⟩ ⟨1, "alice", 10, true⟩).2
      ⟨3, "alice", 30, true⟩).2.find "alice" = some ⟨1, "alice", 10, true⟩ :=
  C2_RequestMatch_twice ⟨[("bob", ⟨2, "bob", 20, true⟩)]⟩ "alice" ⟨1, "alice", 10, true⟩
    ⟨3, "alice", 30, true⟩ (by decide) (by decide) (by decide)

/-! ## One pass of the matching loop -/

theorem samplePair_of_cons_cons {k₁ k₂ : String} {p₁ p₂ : PlayerSession}
    {rest : List (String × PlayerSession)} :
    MatchMaker.samplePair ⟨(k₁, p₁) :: (k₂, p₂) :: rest⟩ = (some p₁, some p₂) := by
  simp [MatchMaker.samplePair, StdMap.size, MAX_PLAYER_PER_GAME]

theorem samplePair_of_small {mMatchMap : MatchMap} (h : mMatchMap.size < 2) :
    MatchMaker.samplePair mMatchMap = (none, none) := by
  have : ¬ mMatchMap.size ≥ MAX_PLAYER_PER_GAME := by
    simp only [MAX_PLAYER_PER_GAME]
    omega
  simp [MatchMaker.samplePair, this]

theorem entries_of_samplePair {mMatchMap : MatchMap} {p₁ p₂ : PlayerSession}
    (h : MatchMaker.samplePair mMatchMap = (some p₁, some p₂)) :
    ∃ k₁ k₂ rest, mMatchMap.entries = (k₁, p₁) :: (k₂, p₂) :: rest := by
  obtain ⟨entries⟩ := mMatchMap
  match entries, h with
  | [], h => simp [MatchMaker.samplePair, StdMap.size, MAX_PLAYER_PER_GAME] at h
  | [_], h => simp [MatchMaker.samplePair, StdMap.size, MAX_PLAYER_PER_GAME] at h
  | (k₁, q₁) :: (k₂, q₂) :: rest, h =>
    rw [samplePair_of_cons_cons] at h
    simp only [Prod.mk.injEq, Option.some.injEq] at h
    exact ⟨k₁, k₂, rest, by rw [h.1, h.2]⟩

theorem iteration_of_no_pair (mGLClient : GameLiftClient) {mMatchMap : MatchMap}
    (h : mMatchMap.size < 2) :
    MatchMaker.DoMatchMakingIteration mGLClient mMatchMap =
      (mMatchMap, [Event.EnterReadLock, Event.CopyPair, Event.LeaveReadLock, Event.Sleep 100]) := by
  simp [MatchMaker.DoMatchMakingIteration, samplePair_of_small h]

theorem iteration_of_first_stale (mGLClient : GameLiftClient) {mMatchMap : MatchMap}
    {p₁ p₂ : PlayerSession} (hs : MatchMaker.samplePair mMatchMap = (some p₁, some p₂))
    (h₁ : p₁.IsConnected = false) :
    MatchMaker.DoMatchMakingIteration mGLClient mMatchMap =
      (mMatchMap.erase p₁.GetPlayerName,
        [Event.EnterReadLock, Event.CopyPair, Event.LeaveReadLock, Event.IsConnected p₁,
         Event.EnterWriteLock, Event.Erase p₁.GetPlayerName, Event.LeaveWriteLock]) := by
  simp [MatchMaker.DoMatchMakingIteration, hs, h₁]

theorem iteration_of_second_stale (mGLClient : GameLiftClient) {mMatchMap : MatchMap}
    {p₁ p₂ : PlayerSession} (hs : MatchMaker.samplePair mMatchMap = (some p₁, some p₂))
    (h₁ : p₁.IsConnected = true) (h₂ : p₂.IsConnected = false) :
    MatchMaker.DoMatchMakingIteration mGLClient mMatchMap =
      (mMatchMap.erase p₂.GetPlayerName,
        [Event.EnterReadLock, Event.CopyPair, Event.LeaveReadLock, Event.IsConnected p₁,
         Event.IsConnected p₂, Event.EnterWriteLock, Event.Erase p₂.GetPlayerName,
         Event.LeaveWriteLock]) := by
  simp [MatchMaker.DoMatchMakingIteration, hs, h₁, h₂]

theorem iteration_of_session_created (mGLClient : GameLiftClient) {mMatchMap : MatchMap}
    {p₁ p₂ : PlayerSession} {gs : GameSession}
    (hs : MatchMaker.samplePair mMatchMap = (some p₁, some p₂))
    (h₁ : p₁.IsConnected = true) (h₂ : p₂.IsConnected = true)
    (hgs : mGLClient.CreateGameSession MatchMaker.gameSessionRequest = Except.ok gs) :
    MatchMaker.DoMatchMakingIteration mGLClient mMatchMap =
      ((mMatchMap.erase p₁.GetPlayerName).erase p₂.GetPlayerName,
        [Event.EnterReadLock, Event.CopyPair, Event.LeaveReadLock, Event.IsConnected p₁,
         Event.IsConnected p₂, Event.CreateGameSession MatchMaker.gameSessionRequest,
         Event.StdOut "CreatePlayerSessions on Created Game Session\n",
         Event.CreatePlayerSessions
           (MatchMaker.playerSessionsRequest p₁ p₂ gs.gameSessionId),
         Event.SendMatchInfo p₁ gs.port gs.ipAddress p₁.GetPlayerName,
         Event.SendMatchInfo p₂ gs.port gs.ipAddress p₂.GetPlayerName,
         Event.EnterWriteLock, Event.Erase p₁.GetPlayerName, Event.Erase p₂.GetPlayerName,
         Event.LeaveWriteLock, Event.Sleep 100]) := by
  simp [MatchMaker.DoMatchMakingIteration, MatchMaker.CreatePlayerSessions, hs, h₁, h₂, hgs]

theorem iteration_of_session_refused (mGLClient : GameLiftClient) {mMatchMap : MatchMap}
    {p₁ p₂ : PlayerSession} {exceptionName : String}
    (hs : MatchMaker.samplePair mMatchMap = (some p₁, some p₂))
    (h₁ : p₁.IsConnected = true) (h₂ : p₂.IsConnected = true)
    (hgs : mGLClient.CreateGameSession MatchMaker.gameSessionRequest
      = Except.error exceptionName) :
    MatchMaker.DoMatchMakingIteration mGLClient mMatchMap =
      ((mMatchMap.erase p₁.GetPlayerName).erase p₂.GetPlayerName,
        [Event.EnterReadLock, Event.CopyPair, Event.LeaveReadLock, Event.IsConnected p₁,
         Event.IsConnected p₂, Event.CreateGameSession MatchMaker.gameSessionRequest,
         Event.ConsoleLog ("CreateGameSession error: " ++ exceptionName ++ "\n"),
         Event.EnterWriteLock, Event.Erase p₁.GetPlayerName, Event.Erase p₂.GetPlayerName,
         Event.LeaveWriteLock, Event.Sleep 100]) := by
  simp [MatchMaker.DoMatchMakingIteration, hs, h₁, h₂, hgs]

theorem eq_pair_of_perm {α : Type} {l : List α} {a b : α} (h : l.Perm [a, b]) :
    l = [a, b] ∨ l = [b, a] := by
  have hlen := h.length_eq
  match l, h, hlen with
  | [x, y], h, _ =>
    have hx : x ∈ [a, b] := h.subset (by simp)
    have hy : y ∈ [a, b] := h.subset (by simp)
    have ha : a ∈ [x, y] := h.symm.subset (by simp)
    have hb : b ∈ [x, y] := h.symm.subset (by simp)
    simp only [List.mem_cons, List.mem_singleton, List.not_mem_nil, or_false] at hx hy ha hb
    rcases hx with hx | hx <;> rcases hy with hy | hy <;> subst hx <;> subst hy
    · rcases hb with hb | hb <;> subst hb <;> exact Or.inl rfl
    · exact Or.inl rfl
    · exact Or.inr rfl
    · rcases ha with ha | ha <;> subst ha <;> exact Or.inl rfl

theorem sampled_entries {mMatchMap : MatchMap} {p₁ p₂ : PlayerSession}
    (hk : WellKeyed mMatchMap)
    (hs : MatchMaker.samplePair mMatchMap = (some p₁, some p₂)) :
    ∃ rest, mMatchMap.entries = (p₁.GetPlayerName, p₁) :: (p₂.GetPlayerName, p₂) :: rest := by
  obtain ⟨k₁, k₂, rest, he⟩ := entries_of_samplePair hs
  have h₁ : k₁ = p₁.GetPlayerName := hk (k₁, p₁) (by rw [he]; simp)
  have h₂ : k₂ = p₂.GetPlayerName := hk (k₂, p₂) (by rw [he]; simp)
  exact ⟨rest, by rw [he, h₁, h₂]⟩

/-- C3, the code at a failing input: with exactly alice and bob queued, both connected, a
client that creates the game session and answers the `CreatePlayerSessions` request with the
player session ids psess-alice and psess-bob, the pass sends one `SendMatchInfo` to alice and
one to bob with the port and address of the game session and empties the queue, but the value
each one carries is the player's own name: no value sent is a player session id of the
answer. -/
theorem C3_values_sent_are_not_join_tokens :
    glBothOk.CreateGameSession MatchMaker.gameSessionRequest = Except.ok gsess ∧
    glBothOk.CreatePlayerSessions (MatchMaker.playerSessionsRequest alice bob "gsess-1")
      = Except.ok [⟨"alice", "psess-alice"⟩, ⟨"bob", "psess-bob"⟩] ∧
    notifications (MatchMaker.DoMatchMakingIteration glBothOk aliceAndBob).2
      = [⟨alice, 7777, "10.0.0.1", "alice"⟩, ⟨bob, 7777, "10.0.0.1", "bob"⟩] ∧
    (∀ info ∈ notifications (MatchMaker.DoMatchMakingIteration glBothOk aliceAndBob).2,
      ∀ issued ∈ [(⟨"alice", "psess-alice"⟩ : PlayerSessionInfo), ⟨"bob", "psess-bob"⟩],
        info.psessId ≠ issued.playerSessionId) ∧
    (MatchMaker.DoMatchMakingIteration glBothOk aliceAndBob).1 = StdMap.empty := by
  refine ⟨rfl, ?_, by decide, by decide, by decide⟩
  show Except.ok _ = Except.ok _
  refine congrArg Except.ok ?_
  decide

theorem StdMap.ext_entries {V : Type} :
    ∀ {m₁ m₂ : StdMap V}, m₁.entries = m₂.entries → m₁ = m₂
  | ⟨_⟩, ⟨_⟩, rfl => rfl

theorem StdMap.ordered_erase {V : Type} {m : StdMap V} (k : String) (h : m.Ordered) :
    (m.erase k).Ordered :=
  ascending_eraseEntries k h

theorem StdMap.find_erase {V : Type} {m : StdMap V} (k k' : String) (h : m.Ordered) :
    (m.erase k).find k' = if k' = k then none else m.find k' :=
  findEntries_eraseEntries k k' h

theorem sampled_erase {mMatchMap : MatchMap} {p₁ p₂ : PlayerSession}
    (hq : mMatchMap.Ordered) (hk : WellKeyed mMatchMap)
    (hs : MatchMaker.samplePair mMatchMap = (some p₁, some p₂)) :
    ∃ rest, mMatchMap.entries = (p₁.GetPlayerName, p₁) :: (p₂.GetPlayerName, p₂) :: rest ∧
      p₁.GetPlayerName ≠ p₂.GetPlayerName ∧
      (mMatchMap.erase p₁.GetPlayerName).entries = (p₂.GetPlayerName, p₂) :: rest ∧
      (mMatchMap.erase p₂.GetPlayerName).entries = (p₁.GetPlayerName, p₁) :: rest ∧
      ((mMatchMap.erase p₁.GetPlayerName).erase p₂.GetPlayerName).entries = rest := by
  obtain ⟨rest, he⟩ := sampled_entries hk hs
  have hq' : Ascending ((p₁.GetPlayerName, p₁) :: (p₂.GetPlayerName, p₂) :: rest) := he ▸ hq
  have hne : p₁.GetPlayerName ≠ p₂.GetPlayerName :=
    keyLess_ne ((List.pairwise_cons.1 hq').1 _ (List.mem_cons_self _ _))
  refine ⟨rest, he, hne, ?_, ?_, ?_⟩
  · simp [StdMap.erase, he, eraseEntries]
  · simp [StdMap.erase, he, eraseEntries, hne.symm]
  · simp [StdMap.erase, he, eraseEntries]

/-- C4, the code at a failing input: with alice and bob queued and connected, a client that
creates the game session and then answers the `CreatePlayerSessions` request with an error,
the pass still sends `SendMatchInfo` to alice and to bob and reports no error; both are
removed from the queue. -/
theorem C4_bind_failure_is_not_checked :
    glBindFails.CreatePlayerSessions (MatchMaker.playerSessionsRequest alice bob "gsess-1")
      = Except.error "GameSessionFullException" ∧
    createPlayerSessionsCalls (MatchMaker.DoMatchMakingIteration glBindFails aliceAndBob).2
      = [MatchMaker.playerSessionsRequest alice bob "gsess-1"] ∧
    notifications (MatchMaker.DoMatchMakingIteration glBindFails aliceAndBob).2
      = [⟨alice, 7777, "10.0.0.1", "alice"⟩, ⟨bob, 7777, "10.0.0.1", "bob"⟩] ∧
    errorReports (MatchMaker.DoMatchMakingIteration glBindFails aliceAndBob).2 = [] ∧
    (MatchMaker.DoMatchMakingIteration glBindFails aliceAndBob).1 = StdMap.empty := by
  refine ⟨rfl, ?_, ?_, ?_, ?_⟩ <;> decide

/-- C5: when both sampled candidates are connected and `CreateGameSession` fails, the pass
sends no `SendMatchInfo`, makes no `CreatePlayerSessions` request, reports exactly one error
(the `CreateGameSession error` line), and afterwards the queue has no entry under the name of
either candidate; a queue that held exactly the two candidates is empty. -/
theorem C5_session_refused (mGLClient : GameLiftClient) (mMatchMap : MatchMap)
    (p₁ p₂ : PlayerSession) (exceptionName : String)
    (hq : mMatchMap.Ordered)
    (hs : MatchMaker.samplePair mMatchMap = (some p₁, some p₂))
    (h₁ : p₁.IsConnected = true) (h₂ : p₂.IsConnected = true)
    (hgs : mGLClient.CreateGameSession MatchMaker.gameSessionRequest
      = Except.error exceptionName) :
    notifications (MatchMaker.DoMatchMakingIteration mGLClient mMatchMap).2 = [] ∧
    createPlayerSessionsCalls (MatchMaker.DoMatchMakingIteration mGLClient mMatchMap).2 = [] ∧
    errorReports (MatchMaker.DoMatchMakingIteration mGLClient mMatchMap).2
      = ["CreateGameSession error: " ++ exceptionName ++ "\n"] ∧
    (MatchMaker.DoMatchMakingIteration mGLClient mMatchMap).1.find p₁.GetPlayerName = none ∧
    (MatchMaker.DoMatchMakingIteration mGLClient mMatchMap).1.find p₂.GetPlayerName = none ∧
    (WellKeyed mMatchMap → mMatchMap.size = 2 →
      (MatchMaker.DoMatchMakingIteration mGLClient mMatchMap).1 = StdMap.empty) := by
  rw [iteration_of_session_refused mGLClient hs h₁ h₂ hgs]
  refine ⟨by simp [notifications], by simp [createPlayerSessionsCalls],
    by simp [errorReports], ?_, ?_, ?_⟩
  · rw [StdMap.find_erase _ _ (StdMap.ordered_erase _ hq), StdMap.find_erase _ _ hq]
    simp
  · rw [StdMap.find_erase _ _ (StdMap.ordered_erase _ hq)]
    simp
  · intro hk hsize
    obtain ⟨rest, he, _, _, _, hboth⟩ := sampled_erase hq hk hs
    have hrest : rest = [] := by
      have : (mMatchMap.entries).length = 2 := hsize
      rw [he] at this
      simpa using this
    simp only
    exact congrArg StdMap.mk (hboth.trans hrest)

/-- C5 at the queue holding alice and bob, with a client that refuses the game session. -/
theorem C5_session_refused_witness :
    notifications (MatchMaker.DoMatchMakingIteration glCreateFails aliceAndBob).2 = [] ∧
    createPlayerSessionsCalls (MatchMaker.DoMatchMakingIteration glCreateFails aliceAndBob).2
      = [] ∧
    errorReports (MatchMaker.DoMatchMakingIteration glCreateFails aliceAndBob).2
      = ["CreateGameSession error: " ++ "FleetCapacityExceededException" ++ "\n"] ∧
    (MatchMaker.DoMatchMakingIteration glCreateFails aliceAndBob).1.find alice.GetPlayerName
      = none ∧
    (MatchMaker.DoMatchMakingIteration glCreateFails aliceAndBob).1.find bob.GetPlayerName
      = none ∧
    (WellKeyed aliceAndBob → aliceAndBob.size = 2 →
      (MatchMaker.DoMatchMakingIteration glCreateFails aliceAndBob).1 = StdMap.empty) :=
  C5_session_refused glCreateFails aliceAndBob alice bob "FleetCapacityExceededException"
    (by decide) (by decide) rfl rfl rfl

/-- C6: when a pair is sampled and one of the two is disconnected, the pass removes exactly
one entry, that of the first candidate if it is disconnected and else that of the second,
leaves the other candidate queued, and makes no `CreateGameSession` request, no
`CreatePlayerSessions` request and no `SendMatchInfo` call.  In particular a queue holding a
connected A and a disconnected B becomes the queue holding A alone. -/
theorem C6_stale_candidate_evicted (mGLClient : GameLiftClient) (mMatchMap : MatchMap)
    (p₁ p₂ : PlayerSession)
    (hq : mMatchMap.Ordered) (hk : WellKeyed mMatchMap)
    (hs : MatchMaker.samplePair mMatchMap = (some p₁, some p₂))
    (hstale : p₁.IsConnected = false ∨ p₂.IsConnected = false) :
    (p₁.IsConnected = false →
      mMatchMap.entries.Perm ((p₁.GetPlayerName, p₁) ::
        (MatchMaker.DoMatchMakingIteration mGLClient mMatchMap).1.entries) ∧
      (MatchMaker.DoMatchMakingIteration mGLClient mMatchMap).1.find p₁.GetPlayerName = none ∧
      (MatchMaker.DoMatchMakingIteration mGLClient mMatchMap).1.find p₂.GetPlayerName
        = some p₂) ∧
    (p₁.IsConnected = true →
      mMatchMap.entries.Perm ((p₂.GetPlayerName, p₂) ::
        (MatchMaker.DoMatchMakingIteration mGLClient mMatchMap).1.entries) ∧
      (MatchMaker.DoMatchMakingIteration mGLClient mMatchMap).1.find p₂.GetPlayerName = none ∧
      (MatchMaker.DoMatchMakingIteration mGLClient mMatchMap).1.find p₁.GetPlayerName
        = some p₁) ∧
    (MatchMaker.DoMatchMakingIteration mGLClient mMatchMap).1.size + 1 = mMatchMap.size ∧
    createGameSessionCalls (MatchMaker.DoMatchMakingIteration mGLClient mMatchMap).2 = [] ∧
    createPlayerSessionsCalls (MatchMaker.DoMatchMakingIteration mGLClient mMatchMap).2 = [] ∧
    notifications (MatchMaker.DoMatchMakingIteration mGLClient mMatchMap).2 = [] ∧
    (∀ A B : PlayerSession,
      mMatchMap.entries.Perm [(A.GetPlayerName, A), (B.GetPlayerName, B)] →
      A.IsConnected = true → B.IsConnected = false →
      (MatchMaker.DoMatchMakingIteration mGLClient mMatchMap).1 = ⟨[(A.GetPlayerName, A)]⟩) := by
  obtain ⟨rest, he, hne, hfirst, hsecond, _⟩ := sampled_erase hq hk hs
  by_cases h₁ : p₁.IsConnected = false
  · rw [iteration_of_first_stale mGLClient hs h₁]
    refine ⟨fun _ => ⟨?_, ?_, ?_⟩, fun h => ?_, ?_, ?_, ?_, ?_, ?_⟩
    · rw [he, hfirst]
    · rw [StdMap.find_erase _ _ hq]
      simp
    · simp [StdMap.find, hfirst, findEntries]
    · rw [h₁] at h
      cases h
    · show (mMatchMap.erase p₁.GetPlayerName).entries.length + 1 = mMatchMap.entries.length
      rw [hfirst, he]
      rfl
    · simp [createGameSessionCalls]
    · simp [createPlayerSessionsCalls]
    · simp [notifications]
    · intro A B hAB hA hB
      rcases eq_pair_of_perm hAB with hab | hab
      · rw [he] at hab
        simp only [List.cons.injEq, Prod.mk.injEq, and_true] at hab
        rw [hab.1.2, hA] at h₁
        cases h₁
      · rw [he] at hab
        simp only [List.cons.injEq, Prod.mk.injEq, and_true] at hab
        refine StdMap.ext_entries ?_
        rw [hfirst, hab.2.1.1, hab.2.1.2, hab.2.2]
  · have h₁' : p₁.IsConnected = true := by simpa using h₁
    have h₂ : p₂.IsConnected = false := hstale.resolve_left h₁
    rw [iteration_of_second_stale mGLClient hs h₁' h₂]
    refine ⟨fun h => absurd h h₁, fun _ => ⟨?_, ?_, ?_⟩, ?_, ?_, ?_, ?_, ?_⟩
    · rw [he, hsecond]
      exact List.Perm.swap _ _ _
    · rw [StdMap.find_erase _ _ hq]
      simp
    · simp [StdMap.find, hsecond, findEntries]
    · show (mMatchMap.erase p₂.GetPlayerName).entries.length + 1 = mMatchMap.entries.length
      rw [hsecond, he]
      rfl
    · simp [createGameSessionCalls]
    · simp [createPlayerSessionsCalls]
    · simp [notifications]
    · intro A B hAB hA hB
      rcases eq_pair_of_perm hAB with hab | hab
      · rw [he] at hab
        simp only [List.cons.injEq, Prod.mk.injEq, and_true] at hab
        refine StdMap.ext_entries ?_
        rw [hsecond, hab.1.1, hab.1.2, hab.2.2]
      · rw [he] at hab
        simp only [List.cons.injEq, Prod.mk.injEq, and_true] at hab
        rw [hab.2.1.2, hA] at h₂
        cases h₂

/-- C6 at the queue holding alice, connected, and bob, disconnected: bob is removed. -/
theorem C6_stale_candidate_evicted_witness :
    (MatchMaker.DoMatchMakingIteration glBothOk aliceAndBobOffline).1
      = ⟨[(alice.GetPlayerName, alice)]⟩ :=
  (C6_stale_candidate_evicted glBothOk aliceAndBobOffline alice bobOffline (by decide)
    (by decide) (by decide) (Or.inr rfl)).2.2.2.2.2.2 alice bobOffline (List.Perm.refl _)
    rfl rfl

theorem samplePair_of_large {mMatchMap : MatchMap} (h : 2 ≤ mMatchMap.size) :
    ∃ p₁ p₂, MatchMaker.samplePair mMatchMap = (some p₁, some p₂) := by
  obtain ⟨entries⟩ := mMatchMap
  match entries, h with
  | (k₁, p₁) :: (k₂, p₂) :: rest, _ => exact ⟨p₁, p₂, samplePair_of_cons_cons⟩

theorem size_of_samplePair {mMatchMap : MatchMap} {p₁ p₂ : PlayerSession}
    (hs : MatchMaker.samplePair mMatchMap = (some p₁, some p₂)) : 2 ≤ mMatchMap.size := by
  obtain ⟨k₁, k₂, rest, he⟩ := entries_of_samplePair hs
  simp [StdMap.size, he]

theorem iteration_queue_eq_erased (mGLClient : GameLiftClient) (mMatchMap : MatchMap) :
    (MatchMaker.DoMatchMakingIteration mGLClient mMatchMap).2.take 3
      = [Event.EnterReadLock, Event.CopyPair, Event.LeaveReadLock] ∧
    (MatchMaker.DoMatchMakingIteration mGLClient mMatchMap).1
      = (erasedKeys (MatchMaker.DoMatchMakingIteration mGLClient mMatchMap).2).foldl
          StdMap.erase mMatchMap := by
  by_cases hsize : mMatchMap.size < 2
  · rw [iteration_of_no_pair mGLClient hsize]
    simp [erasedKeys]
  · obtain ⟨p₁, p₂, hs⟩ := samplePair_of_large (Nat.le_of_not_lt hsize)
    by_cases h₁ : p₁.IsConnected = false
    · rw [iteration_of_first_stale mGLClient hs h₁]
      simp [erasedKeys]
    · have h₁' : p₁.IsConnected = true := by simpa using h₁
      by_cases h₂ : p₂.IsConnected = false
      · rw [iteration_of_second_stale mGLClient hs h₁' h₂]
        simp [erasedKeys]
      · have h₂' : p₂.IsConnected = true := by simpa using h₂
        cases hgs : mGLClient.CreateGameSession MatchMaker.gameSessionRequest with
        | error exceptionName =>
          rw [iteration_of_session_refused mGLClient hs h₁' h₂' hgs]
          simp [erasedKeys]
        | ok gs =>
          rw [iteration_of_session_created mGLClient hs h₁' h₂' hgs]
          simp [erasedKeys]

/-- C7: the copy-out under the read lock yields a pair exactly when the queue has at least two
entries; the pair then is the first and the second entry in iteration order, whose keys differ
(and so do the two player names, when the entries are keyed by them).  With fewer than two
entries no pair is sampled and the pass makes no GameLift request, sends no `SendMatchInfo`
and leaves the queue as it is.  Nothing but the copy happens under the read lock: the queue
after a pass is the queue before it with the erase calls of the pass applied. -/
theorem C7_sampling (mMatchMap : MatchMap) (hq : mMatchMap.Ordered) :
    ((∃ p₁ p₂, MatchMaker.samplePair mMatchMap = (some p₁, some p₂)) ↔ 2 ≤ mMatchMap.size) ∧
    (∀ p₁ p₂, MatchMaker.samplePair mMatchMap = (some p₁, some p₂) →
      ∃ k₁ k₂ rest, mMatchMap.entries = (k₁, p₁) :: (k₂, p₂) :: rest ∧ k₁ ≠ k₂ ∧
        (WellKeyed mMatchMap → p₁.GetPlayerName ≠ p₂.GetPlayerName)) ∧
    (mMatchMap.size < 2 →
      MatchMaker.samplePair mMatchMap = (none, none) ∧
      ∀ mGLClient : GameLiftClient,
        (MatchMaker.DoMatchMakingIteration mGLClient mMatchMap).1 = mMatchMap ∧
        createGameSessionCalls (MatchMaker.DoMatchMakingIteration mGLClient mMatchMap).2 = [] ∧
        createPlayerSessionsCalls (MatchMaker.DoMatchMakingIteration mGLClient mMatchMap).2
          = [] ∧
        notifications (MatchMaker.DoMatchMakingIteration mGLClient mMatchMap).2 = []) ∧
    (∀ mGLClient : GameLiftClient,
      (MatchMaker.DoMatchMakingIteration mGLClient mMatchMap).2.take 3
        = [Event.EnterReadLock, Event.CopyPair, Event.LeaveReadLock] ∧
      (MatchMaker.DoMatchMakingIteration mGLClient mMatchMap).1
        = (erasedKeys (MatchMaker.DoMatchMakingIteration mGLClient mMatchMap).2).foldl
            StdMap.erase mMatchMap) := by
  refine ⟨⟨fun ⟨_, _, hs⟩ => size_of_samplePair hs, samplePair_of_large⟩, ?_, ?_,
    fun mGLClient => iteration_queue_eq_erased mGLClient mMatchMap⟩
  · intro p₁ p₂ hs
    obtain ⟨k₁, k₂, rest, he⟩ := entries_of_samplePair hs
    have hq' : Ascending ((k₁, p₁) :: (k₂, p₂) :: rest) := he ▸ hq
    have hne : k₁ ≠ k₂ := keyLess_ne ((List.pairwise_cons.1 hq').1 _ (List.mem_cons_self _ _))
    refine ⟨k₁, k₂, rest, he, hne, fun hk => ?_⟩
    have h₁ : k₁ = p₁.GetPlayerName := hk (k₁, p₁) (by rw [he]; simp)
    have h₂ : k₂ = p₂.GetPlayerName := hk (k₂, p₂) (by rw [he]; simp)
    rw [← h₁, ← h₂]
    exact hne
  · intro hsize
    refine ⟨samplePair_of_small hsize, fun mGLClient => ?_⟩
    rw [iteration_of_no_pair mGLClient hsize]
    simp [createGameSessionCalls, createPlayerSessionsCalls, notifications]

/-- C7 at the queue holding alice alone: no pair, no request, no notification, queue kept. -/
theorem C7_sampling_witness :
    MatchMaker.samplePair ⟨[("alice", alice)]⟩ = (none, none) ∧
    ∀ mGLClient : GameLiftClient,
      (MatchMaker.DoMatchMakingIteration mGLClient ⟨[("alice", alice)]⟩).1
        = ⟨[("alice", alice)]⟩ ∧
      createGameSessionCalls
        (MatchMaker.DoMatchMakingIteration mGLClient ⟨[("alice", alice)]⟩).2 = [] ∧
      createPlayerSessionsCalls
        (MatchMaker.DoMatchMakingIteration mGLClient ⟨[("alice", alice)]⟩).2 = [] ∧
      notifications (MatchMaker.DoMatchMakingIteration mGLClient ⟨[("alice", alice)]⟩).2 = [] :=
  (C7_sampling ⟨[("alice", alice)]⟩ (by decide)).2.2.1 (by decide)

/-- C8: for a queue of at least two entries (live or not), one pass samples a pair and either
both candidates are connected, and then, whether `CreateGameSession` succeeds or fails, the
size drops by exactly two and neither candidate is left queued (so never exactly one of the
two); or a candidate is disconnected, and then the size drops by the number of erase calls of
the pass, which is one, the erased key being the name of a disconnected candidate. -/
theorem C8_size_decrease (mGLClient : GameLiftClient) (mMatchMap : MatchMap)
    (hq : mMatchMap.Ordered) (hk : WellKeyed mMatchMap) (hsize : 2 ≤ mMatchMap.size) :
    ∃ p₁ p₂, MatchMaker.samplePair mMatchMap = (some p₁, some p₂) ∧
      (p₁.IsConnected = true → p₂.IsConnected = true →
        (MatchMaker.DoMatchMakingIteration mGLClient mMatchMap).1.size + 2 = mMatchMap.size ∧
        (MatchMaker.DoMatchMakingIteration mGLClient mMatchMap).1.find p₁.GetPlayerName
          = none ∧
        (MatchMaker.DoMatchMakingIteration mGLClient mMatchMap).1.find p₂.GetPlayerName
          = none) ∧
      (p₁.IsConnected = false ∨ p₂.IsConnected = false →
        (MatchMaker.DoMatchMakingIteration mGLClient mMatchMap).1.size +
            (erasedKeys (MatchMaker.DoMatchMakingIteration mGLClient mMatchMap).2).length
          = mMatchMap.size ∧
        (erasedKeys (MatchMaker.DoMatchMakingIteration mGLClient mMatchMap).2).length = 1 ∧
        ∀ k ∈ erasedKeys (MatchMaker.DoMatchMakingIteration mGLClient mMatchMap).2,
          (k = p₁.GetPlayerName ∧ p₁.IsConnected = false) ∨
          (k = p₂.GetPlayerName ∧ p₂.IsConnected = false)) := by
  obtain ⟨p₁, p₂, hs⟩ := samplePair_of_large hsize
  obtain ⟨rest, he, hne, hfirst, hsecond, hboth⟩ := sampled_erase hq hk hs
  have hlen : mMatchMap.size = rest.length + 2 := by simp [StdMap.size, he]
  refine ⟨p₁, p₂, hs, ?_, ?_⟩
  · intro h₁ h₂
    have hqueue : (MatchMaker.DoMatchMakingIteration mGLClient mMatchMap).1
        = (mMatchMap.erase p₁.GetPlayerName).erase p₂.GetPlayerName := by
      cases hgs : mGLClient.CreateGameSession MatchMaker.gameSessionRequest with
      | error exceptionName => rw [iteration_of_session_refused mGLClient hs h₁ h₂ hgs]
      | ok gs => rw [iteration_of_session_created mGLClient hs h₁ h₂ hgs]
    rw [hqueue]
    refine ⟨?_, ?_, ?_⟩
    · rw [hlen]
      show ((mMatchMap.erase p₁.GetPlayerName).erase p₂.GetPlayerName).entries.length + 2 = _
      rw [hboth]
    · rw [StdMap.find_erase _ _ (StdMap.ordered_erase _ hq), StdMap.find_erase _ _ hq]
      simp
    · rw [StdMap.find_erase _ _ (StdMap.ordered_erase _ hq)]
      simp
  · intro hstale
    by_cases h₁ : p₁.IsConnected = false
    · rw [iteration_of_first_stale mGLClient hs h₁]
      refine ⟨?_, by simp [erasedKeys], ?_⟩
      · rw [hlen]
        show (mMatchMap.erase p₁.GetPlayerName).entries.length + _ = _
        rw [hfirst]
        simp [erasedKeys]
      · intro k hmem
        simp only [erasedKeys, List.mem_singleton] at hmem
        exact Or.inl ⟨hmem, h₁⟩
    · have h₁' : p₁.IsConnected = true := by simpa using h₁
      have h₂ : p₂.IsConnected = false := hstale.resolve_left h₁
      rw [iteration_of_second_stale mGLClient hs h₁' h₂]
      refine ⟨?_, by simp [erasedKeys], ?_⟩
      · rw [hlen]
        show (mMatchMap.erase p₂.GetPlayerName).entries.length + _ = _
        rw [hsecond]
        simp [erasedKeys]
      · intro k hmem
        simp only [erasedKeys, List.mem_singleton] at hmem
        exact Or.inr ⟨hmem, h₂⟩

/-- C8 at the queue holding alice and bob, both connected, with a client that refuses the game
session: a pair is sampled and the size drops by two. -/
theorem C8_size_decrease_witness :
    ∃ p₁ p₂, MatchMaker.samplePair aliceAndBob = (some p₁, some p₂) ∧
      (p₁.IsConnected = true → p₂.IsConnected = true →
        (MatchMaker.DoMatchMakingIteration glCreateFails aliceAndBob).1.size + 2
          = aliceAndBob.size ∧
        (MatchMaker.DoMatchMakingIteration glCreateFails aliceAndBob).1.find p₁.GetPlayerName
          = none ∧
        (MatchMaker.DoMatchMakingIteration glCreateFails aliceAndBob).1.find p₂.GetPlayerName
          = none) ∧
      (p₁.IsConnected = false ∨ p₂.IsConnected = false →
        (MatchMaker.DoMatchMakingIteration glCreateFails aliceAndBob).1.size +
            (erasedKeys (MatchMaker.DoMatchMakingIteration glCreateFails aliceAndBob).2).length
          = aliceAndBob.size ∧
        (erasedKeys (MatchMaker.DoMatchMakingIteration glCreateFails aliceAndBob).2).length
          = 1 ∧
        ∀ k ∈ erasedKeys (MatchMaker.DoMatchMakingIteration glCreateFails aliceAndBob).2,
          (k = p₁.GetPlayerName ∧ p₁.IsConnected = false) ∨
          (k = p₂.GetPlayerName ∧ p₂.IsConnected = false)) :=
  C8_size_decrease glCreateFails aliceAndBob (by decide) (by decide) (by decide)

/-- C9, the code at a failing input: with alice and bob queued and connected and a client whose
`CreatePlayerSessions` answers with the player session ids psess-alice and psess-bob, the pass
makes the one request, for the names alice and bob, and then sends each player the player's
own name as session id, not the id of the answer. -/
theorem C9_session_id_sent_is_player_name :
    createPlayerSessionsCalls (MatchMaker.DoMatchMakingIteration glBothOk aliceAndBob).2
      = [MatchMaker.playerSessionsRequest alice bob "gsess-1"] ∧
    (MatchMaker.playerSessionsRequest alice bob "gsess-1").playerIds = ["alice", "bob"] ∧
    glBothOk.CreatePlayerSessions (MatchMaker.playerSessionsRequest alice bob "gsess-1")
      = Except.ok [⟨"alice", "psess-alice"⟩, ⟨"bob", "psess-bob"⟩] ∧
    notifications (MatchMaker.DoMatchMakingIteration glBothOk aliceAndBob).2
      = [⟨alice, 7777, "10.0.0.1", "alice"⟩, ⟨bob, 7777, "10.0.0.1", "bob"⟩] := by
  refine ⟨by decide, by decide, ?_, by decide⟩
  show Except.ok _ = Except.ok _
  refine congrArg Except.ok ?_
  decide

/-! ## Sequences of actions -/

theorem foldl_erase_keeps {n : String} (keys : List String) :
    ∀ mMatchMap : MatchMap, mMatchMap.Ordered →
      (keys.foldl StdMap.erase mMatchMap).Ordered ∧
      (WellKeyed mMatchMap → WellKeyed (keys.foldl StdMap.erase mMatchMap)) ∧
      (mMatchMap.find n = none → (keys.foldl StdMap.erase mMatchMap).find n = none) := by
  induction keys with
  | nil => exact fun mMatchMap hq => ⟨hq, id, id⟩
  | cons k rest ih =>
    intro mMatchMap hq
    obtain ⟨h₁, h₂, h₃⟩ := ih (mMatchMap.erase k) (StdMap.ordered_erase k hq)
    refine ⟨h₁, fun hk => h₂ ?_, fun hn => h₃ ?_⟩
    · intro e he
      exact hk e (mem_of_mem_eraseEntries he)
    · rw [StdMap.find_erase _ _ hq, hn]
      simp

theorem ordered_iteration (mGLClient : GameLiftClient) {mMatchMap : MatchMap}
    (hq : mMatchMap.Ordered) :
    (MatchMaker.DoMatchMakingIteration mGLClient mMatchMap).1.Ordered := by
  rw [(iteration_queue_eq_erased mGLClient mMatchMap).2]
  exact (foldl_erase_keeps (n := "") _ mMatchMap hq).1

theorem wellKeyed_iteration (mGLClient : GameLiftClient) {mMatchMap : MatchMap}
    (hq : mMatchMap.Ordered) (hk : WellKeyed mMatchMap) :
    WellKeyed (MatchMaker.DoMatchMakingIteration mGLClient mMatchMap).1 := by
  rw [(iteration_queue_eq_erased mGLClient mMatchMap).2]
  exact (foldl_erase_keeps (n := "") _ mMatchMap hq).2.1 hk

theorem absent_iteration (mGLClient : GameLiftClient) {mMatchMap : MatchMap} {n : String}
    (hq : mMatchMap.Ordered) (hn : mMatchMap.find n = none) :
    (MatchMaker.DoMatchMakingIteration mGLClient mMatchMap).1.find n = none := by
  rw [(iteration_queue_eq_erased mGLClient mMatchMap).2]
  exact (foldl_erase_keeps _ mMatchMap hq).2.2 hn

theorem ordered_RequestMatch {mMatchMap : MatchMap} (psess : PlayerSession)
    (hq : mMatchMap.Ordered) : (MatchMaker.RequestMatch mMatchMap psess).2.Ordered := by
  by_cases h : mMatchMap.find psess.GetPlayerName = none
  · rw [RequestMatch_of_absent h]
    exact ascending_assignEntries _ _ hq
  · rw [RequestMatch_of_present h]
    exact hq

theorem wellKeyed_RequestMatch {mMatchMap : MatchMap} (psess : PlayerSession)
    (hk : WellKeyed mMatchMap) : WellKeyed (MatchMaker.RequestMatch mMatchMap psess).2 := by
  by_cases h : mMatchMap.find psess.GetPlayerName = none
  · rw [RequestMatch_of_absent h]
    intro e he
    rcases mem_assignEntries he with he | he
    · rw [he]
    · exact hk e he
  · rw [RequestMatch_of_present h]
    exact hk

theorem findEntries_map {V : Type} (k : String) (f : V → V) :
    ∀ l : List (String × V),
      findEntries k (l.map (fun e => (e.1, f e.2))) = (findEntries k l).map f
  | [] => rfl
  | e :: rest => by
    by_cases h : k = e.1
    · simp [findEntries, h]
    · simp [findEntries, h, findEntries_map k f rest]

theorem ordered_step {mMatchMap : MatchMap} (a : Action) (hq : mMatchMap.Ordered) :
    (step mMatchMap a).Ordered := by
  cases a with
  | RequestMatch psess => exact ordered_RequestMatch psess hq
  | Iterate mGLClient => exact ordered_iteration mGLClient hq
  | Transport update =>
    show Ascending (mMatchMap.entries.map (fun e => (e.1, update e.2)))
    exact List.pairwise_map.2 hq

theorem wellKeyed_step {mMatchMap : MatchMap} (a : Action) (hq : mMatchMap.Ordered)
    (hk : WellKeyed mMatchMap) (ha : a.KeepsNames) : WellKeyed (step mMatchMap a) := by
  cases a with
  | RequestMatch psess => exact wellKeyed_RequestMatch psess hk
  | Iterate mGLClient => exact wellKeyed_iteration mGLClient hq hk
  | Transport update =>
    intro e he
    obtain ⟨e₀, he₀, rfl⟩ := List.mem_map.1 he
    show e₀.1 = (update e₀.2).GetPlayerName
    rw [ha e₀.2]
    exact hk e₀ he₀

theorem invariants_run (actions : List Action) :
    ∀ mMatchMap : MatchMap, mMatchMap.Ordered → WellKeyed mMatchMap →
      (∀ a ∈ actions, a.KeepsNames) →
      (run mMatchMap actions).Ordered ∧ WellKeyed (run mMatchMap actions) := by
  induction actions with
  | nil => exact fun _ hq hk _ => ⟨hq, hk⟩
  | cons a rest ih =>
    intro mMatchMap hq hk hnames
    exact ih (step mMatchMap a) (ordered_step a hq)
      (wellKeyed_step a hq hk (hnames a (List.mem_cons_self _ _)))
      (fun b hb => hnames b (List.mem_cons_of_mem _ hb))

theorem sampled_of_notified (mGLClient : GameLiftClient) {mMatchMap : MatchMap} {n : String}
    (h : notified n (MatchMaker.DoMatchMakingIteration mGLClient mMatchMap).2) :
    sampled n mMatchMap ∧
      ∀ p₁ p₂, MatchMaker.samplePair mMatchMap = (some p₁, some p₂) →
        (MatchMaker.DoMatchMakingIteration mGLClient mMatchMap).1
          = (mMatchMap.erase p₁.GetPlayerName).erase p₂.GetPlayerName := by
  by_cases hsize : mMatchMap.size < 2
  · rw [iteration_of_no_pair mGLClient hsize] at h
    simp [notified, notifications] at h
  · obtain ⟨p₁, p₂, hs⟩ := samplePair_of_large (Nat.le_of_not_lt hsize)
    by_cases h₁ : p₁.IsConnected = false
    · rw [iteration_of_first_stale mGLClient hs h₁] at h
      simp [notified, notifications] at h
    · have h₁' : p₁.IsConnected = true := by simpa using h₁
      by_cases h₂ : p₂.IsConnected = false
      · rw [iteration_of_second_stale mGLClient hs h₁' h₂] at h
        simp [notified, notifications] at h
      · have h₂' : p₂.IsConnected = true := by simpa using h₂
        cases hgs : mGLClient.CreateGameSession MatchMaker.gameSessionRequest with
        | error exceptionName =>
          rw [iteration_of_session_refused mGLClient hs h₁' h₂' hgs] at h
          simp [notified, notifications] at h
        | ok gs =>
          rw [iteration_of_session_created mGLClient hs h₁' h₂' hgs] at h ⊢
          simp only [notified, notifications, List.mem_cons, List.mem_singleton,
            List.not_mem_nil, or_false, exists_eq_or_imp, exists_eq_left] at h
          refine ⟨⟨p₁, p₂, hs, h⟩, ?_⟩
          intro q₁ q₂ hs'
          rw [hs] at hs'
          simp only [Prod.mk.injEq, Option.some.injEq] at hs'
          rw [hs'.1, hs'.2]

theorem absent_of_notified (mGLClient : GameLiftClient) {mMatchMap : MatchMap} {n : String}
    (hq : mMatchMap.Ordered)
    (h : notified n (MatchMaker.DoMatchMakingIteration mGLClient mMatchMap).2) :
    (MatchMaker.DoMatchMakingIteration mGLClient mMatchMap).1.find n = none := by
  obtain ⟨⟨p₁, p₂, hs, hn⟩, hqueue⟩ := sampled_of_notified mGLClient h
  rw [hqueue p₁ p₂ hs, StdMap.find_erase _ _ (StdMap.ordered_erase _ hq),
    StdMap.find_erase _ _ hq]
  rcases hn with hn | hn
  · by_cases h₂ : n = p₂.GetPlayerName
    · simp [h₂]
    · simp [h₂, hn]
  · simp [hn]

theorem queued_of_sampled {mMatchMap : MatchMap} {n : String}
    (hk : WellKeyed mMatchMap) (h : sampled n mMatchMap) : mMatchMap.find n ≠ none := by
  obtain ⟨p₁, p₂, hs, hn⟩ := h
  obtain ⟨rest, he⟩ := sampled_entries hk hs
  intro hnone
  have hall := findEntries_eq_none.1 hnone
  rcases hn with hn | hn
  · exact hall (p₁.GetPlayerName, p₁) (by rw [he]; simp) hn
  · exact hall (p₂.GetPlayerName, p₂) (by rw [he]; simp) hn

theorem requested_of_queued {n : String} (actions : List Action) :
    ∀ mMatchMap : MatchMap, mMatchMap.Ordered → mMatchMap.find n = none →
      (run mMatchMap actions).find n ≠ none →
      ∃ before psess after, actions = before ++ Action.RequestMatch psess :: after ∧
        psess.GetPlayerName = n ∧
        (MatchMaker.RequestMatch (run mMatchMap before) psess).1 = true := by
  induction actions with
  | nil =>
    intro mMatchMap _ hn hfound
    exact absurd hn hfound
  | cons a rest ih =>
    intro mMatchMap hq hn hfound
    by_cases hstep : (step mMatchMap a).find n = none
    · obtain ⟨before, psess, after, hsplit, hname, htrue⟩ :=
        ih (step mMatchMap a) (ordered_step a hq) hstep hfound
      exact ⟨a :: before, psess, after, by rw [hsplit]; rfl, hname, htrue⟩
    · cases a with
      | RequestMatch psess =>
        by_cases habsent : mMatchMap.find psess.GetPlayerName = none
        · refine ⟨[], psess, rest, rfl, ?_, ?_⟩
          · by_contra hne
            apply hstep
            show (MatchMaker.RequestMatch mMatchMap psess).2.find n = none
            rw [RequestMatch_of_absent habsent]
            show findEntries n (assignEntries _ _ _) = none
            rw [findEntries_assignEntries, if_neg (fun h => hne h.symm)]
            exact hn
          · show (MatchMaker.RequestMatch mMatchMap psess).1 = true
            rw [RequestMatch_of_absent habsent]
        · exfalso
          apply hstep
          show (MatchMaker.RequestMatch mMatchMap psess).2.find n = none
          rw [RequestMatch_of_present habsent]
          exact hn
      | Iterate mGLClient => exact absurd (absent_iteration mGLClient hq hn) hstep
      | Transport update =>
        exfalso
        apply hstep
        show findEntries n (mMatchMap.entries.map (fun e => (e.1, update e.2))) = none
        rw [findEntries_map]
        show Option.map update (mMatchMap.find n) = none
        rw [hn]
        rfl

/-- C10: start from the empty queue and run any sequence of `RequestMatch` calls, passes of
the loop and transport-layer updates that keep player names.  If a pass then notifies a player
named `n`, no entry is queued under `n` when that pass ends; and whatever follows, a later pass
can sample (let alone notify) a player named `n` only if in between some `RequestMatch` for a
session named `n` returned true. -/
theorem C10_at_most_once_per_enqueue (pre : List Action) (mGLClient : GameLiftClient)
    (n : String)
    (hpre : ∀ a ∈ pre, a.KeepsNames)
    (hnotified : notified n
      (MatchMaker.DoMatchMakingIteration mGLClient (run StdMap.empty pre)).2) :
    (MatchMaker.DoMatchMakingIteration mGLClient (run StdMap.empty pre)).1.find n = none ∧
    ∀ mid : List Action, (∀ a ∈ mid, a.KeepsNames) →
      (sampled n
          (run (MatchMaker.DoMatchMakingIteration mGLClient (run StdMap.empty pre)).1 mid) ∨
        ∃ mGLClient₂ : GameLiftClient, notified n
          (MatchMaker.DoMatchMakingIteration mGLClient₂
            (run (MatchMaker.DoMatchMakingIteration mGLClient (run StdMap.empty pre)).1
              mid)).2) →
      ∃ before psess after, mid = before ++ Action.RequestMatch psess :: after ∧
        psess.GetPlayerName = n ∧
        (MatchMaker.RequestMatch
          (run (MatchMaker.DoMatchMakingIteration mGLClient (run StdMap.empty pre)).1 before)
          psess).1 = true := by
  have hempty : (StdMap.empty : MatchMap).Ordered := List.Pairwise.nil
  have hemptyKeyed : WellKeyed StdMap.empty := by
    intro e he
    cases he
  obtain ⟨hq₁, hk₁⟩ := invariants_run pre StdMap.empty hempty hemptyKeyed hpre
  have habsent := absent_of_notified mGLClient hq₁ hnotified
  have hq₂ := ordered_iteration mGLClient hq₁
  have hk₂ := wellKeyed_iteration mGLClient hq₁ hk₁
  refine ⟨habsent, ?_⟩
  intro mid hmid hagain
  obtain ⟨_, hk₃⟩ := invariants_run mid _ hq₂ hk₂ hmid
  have hsampled : sampled n
      (run (MatchMaker.DoMatchMakingIteration mGLClient (run StdMap.empty pre)).1 mid) := by
    rcases hagain with h | ⟨mGLClient₂, h⟩
    · exact h
    · exact (sampled_of_notified mGLClient₂ h).1
  exact requested_of_queued mid _ hq₂ habsent (queued_of_sampled hk₃ hsampled)

/-- C10 after alice and bob were queued and matched: when both are queued and matched a second
time, a `RequestMatch` for alice returned true in between. -/
theorem C10_at_most_once_per_enqueue_witness :
    ∃ before psess after,
      [Action.RequestMatch alice, Action.RequestMatch bob]
        = before ++ Action.RequestMatch psess :: after ∧
      psess.GetPlayerName = "alice" ∧
      (MatchMaker.RequestMatch
        (run (MatchMaker.DoMatchMakingIteration glBothOk (run StdMap.empty aliceThenBob)).1
          before) psess).1 = true :=
  (C10_at_most_once_per_enqueue aliceThenBob glBothOk "alice"
    (by
      intro a ha
      simp only [aliceThenBob, List.mem_cons, List.mem_singleton, List.not_mem_nil,
        or_false] at ha
      rcases ha with rfl | rfl | rfl
      · trivial
      · trivial
      · exact fun _ => rfl)
    (by decide)).2 [Action.RequestMatch alice, Action.RequestMatch bob]
    (by
      intro a ha
      simp only [List.mem_cons, List.mem_singleton, List.not_mem_nil, or_false] at ha
      rcases ha with rfl | rfl <;> trivial)
    (Or.inr ⟨glBothOk, by decide⟩)

/-! ## Removing an entry -/

theorem perm_eraseEntries {V : Type} {k : String} {v : V} :
    ∀ {l : List (String × V)}, findEntries k l = some v →
      l.Perm ((k, v) :: eraseEntries k l)
  | [], h => by simp [findEntries] at h
  | e :: rest, h => by
    by_cases hk : k = e.1
    · simp only [findEntries, if_pos hk, Option.some.injEq] at h
      have he : e = (k, v) := Prod.ext hk.symm h
      simp only [eraseEntries, if_pos hk]
      rw [he]
    · have hrest : findEntries k rest = some v := by simpa [findEntries, hk] using h
      simp only [eraseEntries, if_neg hk]
      exact ((perm_eraseEntries hrest).cons e).trans (List.Perm.swap _ _ _)

theorem findEntries_eraseEntries_of_ne {V : Type} {k k' : String} (hne : k' ≠ k) :
    ∀ l : List (String × V), findEntries k' (eraseEntries k l) = findEntries k' l
  | [] => rfl
  | e :: rest => by
    by_cases h₁ : k = e.1
    · have h₂ : k' ≠ e.1 := fun h => hne (h.trans h₁.symm)
      simp only [eraseEntries, if_pos h₁, findEntries, if_neg h₂]
    · by_cases h₂ : k' = e.1
      · simp only [eraseEntries, if_neg h₁, findEntries, if_pos h₂]
      · simp only [eraseEntries, if_neg h₁, findEntries, if_neg h₂,
          findEntries_eraseEntries_of_ne hne rest]

theorem sublist_eraseEntries {V : Type} (k : String) :
    ∀ l : List (String × V), (eraseEntries k l).Sublist l
  | [] => List.Sublist.slnil
  | e :: rest => by
    by_cases h : k = e.1
    · simp only [eraseEntries, if_pos h]
      exact List.sublist_cons_self _ _
    · simp only [eraseEntries, if_neg h]
      exact (sublist_eraseEntries k rest).cons₂ e

/-- C11: `mMatchMap.erase(k)` is defined on every queue and key.  Erasing a key that is not
queued leaves the queue as it is; erasing the same key a second time changes nothing more;
erasing a queued key removes exactly the entry of that key: the old entries are that entry
plus the remaining ones, the key is absent afterwards, and every other key finds what it
found before. -/
theorem C11_erase_idempotent (mMatchMap : MatchMap) (k : String) (hq : mMatchMap.Ordered) :
    (mMatchMap.find k = none → mMatchMap.erase k = mMatchMap) ∧
    (mMatchMap.erase k).erase k = mMatchMap.erase k ∧
    (∀ psess, mMatchMap.find k = some psess →
      mMatchMap.entries.Perm ((k, psess) :: (mMatchMap.erase k).entries)) ∧
    (mMatchMap.erase k).find k = none ∧
    (∀ k', k' ≠ k → (mMatchMap.erase k).find k' = mMatchMap.find k') := by
  have habsent : (mMatchMap.erase k).find k = none := by
    rw [StdMap.find_erase _ _ hq]
    simp
  refine ⟨fun h => ?_, ?_, fun psess h => perm_eraseEntries h, habsent,
    fun k' hne => findEntries_eraseEntries_of_ne hne _⟩
  · exact StdMap.ext_entries (eraseEntries_of_absent h)
  · exact StdMap.ext_entries (eraseEntries_of_absent habsent)

/-- C11 at the queue holding alice and bob, for the key bob: the second erase changes nothing
and what is left is alice. -/
theorem C11_erase_idempotent_witness :
    (aliceAndBob.erase "bob").erase "bob" = aliceAndBob.erase "bob" ∧
    aliceAndBob.erase "bob" = ⟨[("alice", alice)]⟩ :=
  ⟨(C11_erase_idempotent aliceAndBob "bob" (by decide)).2.1, by decide⟩

/-! ## What a pass leaves alone -/

theorem erasedKeys_of_iteration (mGLClient : GameLiftClient) (mMatchMap : MatchMap) :
    ∀ k ∈ erasedKeys (MatchMaker.DoMatchMakingIteration mGLClient mMatchMap).2,
      ∃ p₁ p₂, MatchMaker.samplePair mMatchMap = (some p₁, some p₂) ∧
        (k = p₁.GetPlayerName ∨ k = p₂.GetPlayerName) := by
  by_cases hsize : mMatchMap.size < 2
  · rw [iteration_of_no_pair mGLClient hsize]
    simp [erasedKeys]
  · obtain ⟨p₁, p₂, hs⟩ := samplePair_of_large (Nat.le_of_not_lt hsize)
    have hboth : ∀ k ∈ [p₁.GetPlayerName, p₂.GetPlayerName],
        ∃ q₁ q₂, MatchMaker.samplePair mMatchMap = (some q₁, some q₂) ∧
          (k = q₁.GetPlayerName ∨ k = q₂.GetPlayerName) := by
      intro k hk
      simp only [List.mem_cons, List.mem_singleton, List.not_mem_nil, or_false] at hk
      exact ⟨p₁, p₂, hs, hk⟩
    by_cases h₁ : p₁.IsConnected = false
    · rw [iteration_of_first_stale mGLClient hs h₁]
      intro k hk
      simp only [erasedKeys, List.mem_singleton] at hk
      exact hboth k (by simp [hk])
    · have h₁' : p₁.IsConnected = true := by simpa using h₁
      by_cases h₂ : p₂.IsConnected = false
      · rw [iteration_of_second_stale mGLClient hs h₁' h₂]
        intro k hk
        simp only [erasedKeys, List.mem_singleton] at hk
        exact hboth k (by simp [hk])
      · have h₂' : p₂.IsConnected = true := by simpa using h₂
        cases hgs : mGLClient.CreateGameSession MatchMaker.gameSessionRequest with
        | error exceptionName =>
          rw [iteration_of_session_refused mGLClient hs h₁' h₂' hgs]
          exact hboth
        | ok gs =>
          rw [iteration_of_session_created mGLClient hs h₁' h₂' hgs]
          exact hboth

theorem foldl_erase_frame (keys : List String) :
    ∀ mMatchMap : MatchMap,
      (keys.foldl StdMap.erase mMatchMap).entries.Sublist mMatchMap.entries ∧
      ∀ k, k ∉ keys → (keys.foldl StdMap.erase mMatchMap).find k = mMatchMap.find k := by
  induction keys with
  | nil => exact fun mMatchMap => ⟨List.Sublist.refl _, fun _ _ => rfl⟩
  | cons k₀ rest ih =>
    intro mMatchMap
    obtain ⟨hsub, hfind⟩ := ih (mMatchMap.erase k₀)
    refine ⟨hsub.trans (sublist_eraseEntries k₀ _), fun k hk => ?_⟩
    have hne : k ≠ k₀ := fun h => hk (h ▸ List.mem_cons_self _ _)
    have hrest : k ∉ rest := fun h => hk (List.mem_cons_of_mem _ h)
    exact (hfind k hrest).trans (findEntries_eraseEntries_of_ne hne _)

theorem sublist_iteration (mGLClient : GameLiftClient) (mMatchMap : MatchMap) :
    (MatchMaker.DoMatchMakingIteration mGLClient mMatchMap).1.entries.Sublist
      mMatchMap.entries := by
  rw [(iteration_queue_eq_erased mGLClient mMatchMap).2]
  exact (foldl_erase_frame _ mMatchMap).1

/-- C14: a pass of the loop adds no entry and touches no entry but those of the two sampled
candidates.  The entries after the pass are entries of the queue before it, in the same order
(same key, same handle); and a key that is not the name of a sampled candidate (any key at
all when no pair is sampled) finds after the pass exactly what it found before: absent stays
absent and a queued handle stays the same handle, whatever branch the pass takes. -/
theorem C14_iteration_frame (mGLClient : GameLiftClient) (mMatchMap : MatchMap) (k : String)
    (hk : ∀ p₁ p₂, MatchMaker.samplePair mMatchMap = (some p₁, some p₂) →
      k ≠ p₁.GetPlayerName ∧ k ≠ p₂.GetPlayerName) :
    (MatchMaker.DoMatchMakingIteration mGLClient mMatchMap).1.find k = mMatchMap.find k ∧
    (MatchMaker.DoMatchMakingIteration mGLClient mMatchMap).1.entries.Sublist
      mMatchMap.entries := by
  refine ⟨?_, sublist_iteration mGLClient mMatchMap⟩
  have hnot : k ∉ erasedKeys (MatchMaker.DoMatchMakingIteration mGLClient mMatchMap).2 := by
    intro hmem
    obtain ⟨p₁, p₂, hs, hor⟩ := erasedKeys_of_iteration mGLClient mMatchMap k hmem
    rcases hor with h | h
    · exact (hk p₁ p₂ hs).1 h
    · exact (hk p₁ p₂ hs).2 h
  have hfold := (foldl_erase_frame
    (erasedKeys (MatchMaker.DoMatchMakingIteration mGLClient mMatchMap).2) mMatchMap).2 k hnot
  rw [← (iteration_queue_eq_erased mGLClient mMatchMap).2] at hfold
  exact hfold

/-- C14 at the queue holding alice, bob and carol: alice and bob are sampled and matched, and
carol is still queued with her handle. -/
theorem C14_iteration_frame_witness :
    (MatchMaker.DoMatchMakingIteration glBothOk aliceBobCarol).1.find "carol" = some carol ∧
    (MatchMaker.DoMatchMakingIteration glBothOk aliceBobCarol).1.entries.Sublist
      aliceBobCarol.entries :=
  C14_iteration_frame glBothOk aliceBobCarol "carol" (by
    intro p₁ p₂ hs
    have h : (some alice, some bob) = (some p₁, some p₂) := hs
    simp only [Prod.mk.injEq, Option.some.injEq] at h
    rw [← h.1, ← h.2]
    decide)

/-! ## The queue is keyed by player name -/

theorem wellKeyed_of_sublist {m₁ m₂ : MatchMap} (hsub : m₁.entries.Sublist m₂.entries)
    (hk : WellKeyed m₂) : WellKeyed m₁ :=
  fun e he => hk e (hsub.subset he)

theorem wellKeyed_empty : WellKeyed StdMap.empty := by
  intro e he
  cases he

theorem iteration_erases_sampled (mGLClient : GameLiftClient) {mMatchMap : MatchMap}
    {p₁ p₂ : PlayerSession} (hq : mMatchMap.Ordered) (hk : WellKeyed mMatchMap)
    (hs : MatchMaker.samplePair mMatchMap = (some p₁, some p₂)) :
    ∃ rest, mMatchMap.entries = (p₁.GetPlayerName, p₁) :: (p₂.GetPlayerName, p₂) :: rest ∧
      ((erasedKeys (MatchMaker.DoMatchMakingIteration mGLClient mMatchMap).2
            = [p₁.GetPlayerName] ∧
          (MatchMaker.DoMatchMakingIteration mGLClient mMatchMap).1.entries
            = (p₂.GetPlayerName, p₂) :: rest) ∨
        (erasedKeys (MatchMaker.DoMatchMakingIteration mGLClient mMatchMap).2
            = [p₂.GetPlayerName] ∧
          (MatchMaker.DoMatchMakingIteration mGLClient mMatchMap).1.entries
            = (p₁.GetPlayerName, p₁) :: rest) ∨
        (erasedKeys (MatchMaker.DoMatchMakingIteration mGLClient mMatchMap).2
            = [p₁.GetPlayerName, p₂.GetPlayerName] ∧
          (MatchMaker.DoMatchMakingIteration mGLClient mMatchMap).1.entries = rest)) := by
  obtain ⟨rest, he, _, hfirst, hsecond, hboth⟩ := sampled_erase hq hk hs
  refine ⟨rest, he, ?_⟩
  by_cases h₁ : p₁.IsConnected = false
  · rw [iteration_of_first_stale mGLClient hs h₁]
    exact Or.inl ⟨by simp [erasedKeys], hfirst⟩
  · have h₁' : p₁.IsConnected = true := by simpa using h₁
    by_cases h₂ : p₂.IsConnected = false
    · rw [iteration_of_second_stale mGLClient hs h₁' h₂]
      exact Or.inr (Or.inl ⟨by simp [erasedKeys], hsecond⟩)
    · have h₂' : p₂.IsConnected = true := by simpa using h₂
      cases hgs : mGLClient.CreateGameSession MatchMaker.gameSessionRequest with
      | error exceptionName =>
        rw [iteration_of_session_refused mGLClient hs h₁' h₂' hgs]
        exact Or.inr (Or.inr ⟨by simp [erasedKeys], hboth⟩)
      | ok gs =>
        rw [iteration_of_session_created mGLClient hs h₁' h₂' hgs]
        exact Or.inr (Or.inr ⟨by simp [erasedKeys], hboth⟩)

/-- C15: the invariant that every entry is keyed by the player name of its handle holds for
the empty queue, is kept by `RequestMatch`, by every pass of the loop and by every change of
the queued sessions that keeps their names, and so holds after every sequence of such steps
from the empty queue.  Under the invariant (in a `std::map`) every erase call of a pass names
the key under which a sampled handle is itself queued, each call removes one entry, and no
other key is touched. -/
theorem C15_queue_keyed_by_name :
    WellKeyed StdMap.empty ∧
    (∀ (mMatchMap : MatchMap) (psess : PlayerSession), WellKeyed mMatchMap →
      WellKeyed (MatchMaker.RequestMatch mMatchMap psess).2) ∧
    (∀ (mGLClient : GameLiftClient) (mMatchMap : MatchMap), WellKeyed mMatchMap →
      WellKeyed (MatchMaker.DoMatchMakingIteration mGLClient mMatchMap).1) ∧
    (∀ (mMatchMap : MatchMap) (update : PlayerSession → PlayerSession),
      (∀ psess, (update psess).GetPlayerName = psess.GetPlayerName) → WellKeyed mMatchMap →
      WellKeyed (step mMatchMap (Action.Transport update))) ∧
    (∀ actions : List Action, (∀ a ∈ actions, a.KeepsNames) →
      WellKeyed (run StdMap.empty actions)) ∧
    (∀ (mGLClient : GameLiftClient) (mMatchMap : MatchMap) (p₁ p₂ : PlayerSession),
      mMatchMap.Ordered → WellKeyed mMatchMap →
      MatchMaker.samplePair mMatchMap = (some p₁, some p₂) →
      (∀ k ∈ erasedKeys (MatchMaker.DoMatchMakingIteration mGLClient mMatchMap).2,
        (k = p₁.GetPlayerName ∧ mMatchMap.find k = some p₁) ∨
        (k = p₂.GetPlayerName ∧ mMatchMap.find k = some p₂)) ∧
      (MatchMaker.DoMatchMakingIteration mGLClient mMatchMap).1.size +
          (erasedKeys (MatchMaker.DoMatchMakingIteration mGLClient mMatchMap).2).length
        = mMatchMap.size ∧
      (∀ k, k ∉ erasedKeys (MatchMaker.DoMatchMakingIteration mGLClient mMatchMap).2 →
        (MatchMaker.DoMatchMakingIteration mGLClient mMatchMap).1.find k
          = mMatchMap.find k)) := by
  refine ⟨wellKeyed_empty, fun mMatchMap psess hk => wellKeyed_RequestMatch psess hk,
    fun mGLClient mMatchMap hk => wellKeyed_of_sublist (sublist_iteration mGLClient mMatchMap) hk,
    ?_, ?_, ?_⟩
  · intro mMatchMap update hupdate hk e he
    obtain ⟨e₀, he₀, rfl⟩ := List.mem_map.1 he
    show e₀.1 = (update e₀.2).GetPlayerName
    rw [hupdate e₀.2]
    exact hk e₀ he₀
  · intro actions hnames
    exact (invariants_run actions StdMap.empty List.Pairwise.nil wellKeyed_empty hnames).2
  · intro mGLClient mMatchMap p₁ p₂ hq hk hs
    obtain ⟨rest, he, hcases⟩ := iteration_erases_sampled mGLClient hq hk hs
    have hfind₁ : mMatchMap.find p₁.GetPlayerName = some p₁ :=
      findEntries_of_mem hq (by rw [he]; simp)
    have hfind₂ : mMatchMap.find p₂.GetPlayerName = some p₂ :=
      findEntries_of_mem hq (by rw [he]; simp)
    refine ⟨?_, ?_, ?_⟩
    · intro k hmem
      rcases hcases with ⟨hkeys, _⟩ | ⟨hkeys, _⟩ | ⟨hkeys, _⟩
      · rw [hkeys, List.mem_singleton] at hmem
        exact Or.inl ⟨hmem, hmem ▸ hfind₁⟩
      · rw [hkeys, List.mem_singleton] at hmem
        exact Or.inr ⟨hmem, hmem ▸ hfind₂⟩
      · rw [hkeys] at hmem
        simp only [List.mem_cons, List.mem_singleton, List.not_mem_nil, or_false] at hmem
        rcases hmem with hmem | hmem
        · exact Or.inl ⟨hmem, hmem ▸ hfind₁⟩
        · exact Or.inr ⟨hmem, hmem ▸ hfind₂⟩
    · rcases hcases with ⟨hkeys, hafter⟩ | ⟨hkeys, hafter⟩ | ⟨hkeys, hafter⟩ <;>
        simp [StdMap.size, hkeys, hafter, he]
    · intro k hnot
      have hfold := (foldl_erase_frame
        (erasedKeys (MatchMaker.DoMatchMakingIteration mGLClient mMatchMap).2)
        mMatchMap).2 k hnot
      rw [← (iteration_queue_eq_erased mGLClient mMatchMap).2] at hfold
      exact hfold

/-- C15 for alice asking for a match, bob asking for one while disconnected, and bob
reconnecting: the queue they leave is keyed by the player names. -/
theorem C15_queue_keyed_by_name_witness : WellKeyed (run StdMap.empty aliceThenBob) :=
  C15_queue_keyed_by_name.2.2.2.2.1 aliceThenBob (by
    intro a ha
    simp only [aliceThenBob, List.mem_cons, List.mem_singleton, List.not_mem_nil,
      or_false] at ha
    rcases ha with rfl | rfl | rfl
    · trivial
    · trivial
    · exact fun _ => rfl)

/-! ## The lock -/

theorem lockDiscipline_iteration (mGLClient : GameLiftClient) (mMatchMap : MatchMap) :
    lockDiscipline LockState.Free
      (MatchMaker.DoMatchMakingIteration mGLClient mMatchMap).2 = true := by
  by_cases hsize : mMatchMap.size < 2
  · rw [iteration_of_no_pair mGLClient hsize]
    rfl
  · obtain ⟨p₁, p₂, hs⟩ := samplePair_of_large (Nat.le_of_not_lt hsize)
    by_cases h₁ : p₁.IsConnected = false
    · rw [iteration_of_first_stale mGLClient hs h₁]
      rfl
    · have h₁' : p₁.IsConnected = true := by simpa using h₁
      by_cases h₂ : p₂.IsConnected = false
      · rw [iteration_of_second_stale mGLClient hs h₁' h₂]
        rfl
      · have h₂' : p₂.IsConnected = true := by simpa using h₂
        cases hgs : mGLClient.CreateGameSession MatchMaker.gameSessionRequest with
        | error exceptionName =>
          rw [iteration_of_session_refused mGLClient hs h₁' h₂' hgs]
          rfl
        | ok gs =>
          rw [iteration_of_session_created mGLClient hs h₁' h₂' hgs]
          rfl

theorem lockAfter_of_lockDiscipline (trace : List Event) :
    ∀ held : LockState, lockDiscipline held trace = true →
      lockAfter held trace = LockState.Free := by
  induction trace with
  | nil =>
    intro held h
    simpa [lockDiscipline, lockAfter] using h
  | cons e rest ih =>
    intro held h
    cases e <;> simp only [lockDiscipline, Bool.and_eq_true, decide_eq_true_eq] at h <;>
      simp only [lockAfter] <;> exact ih _ h.2

theorem lockDiscipline_at (pre : List Event) (e : Event) (post : List Event) :
    ∀ held : LockState, lockDiscipline held (pre ++ e :: post) = true →
      (e.isOutsideCall = true → lockAfter held pre = LockState.Free) ∧
      (lockAfter held pre = LockState.Read → e = Event.CopyPair ∨ e = Event.LeaveReadLock) ∧
      (lockAfter held pre = LockState.Write →
        (∃ key, e = Event.Erase key) ∨ e = Event.LeaveWriteLock) := by
  induction pre with
  | nil =>
    intro held h
    cases e <;> simp only [List.nil_append, lockDiscipline, Bool.and_eq_true,
      decide_eq_true_eq] at h <;> simp [lockAfter, Event.isOutsideCall, h.1]
  | cons x rest ih =>
    intro held h
    cases x <;> simp only [List.cons_append, lockDiscipline, Bool.and_eq_true,
      decide_eq_true_eq] at h <;> simp only [lockAfter] <;> exact ih _ h.2

/-- C13: along every path through one pass of the loop (the two paths that end in `continue`
included), `mMatchLock` is free whenever `IsConnected`, `CreateGameSession`,
`CreatePlayerSessions` or `SendMatchInfo` is called; while the read lock is held the only
thing done is the copy of the two handles, and while the write lock is held the only thing
done is erase calls; the lock is taken only when free, and it is free when the pass ends. -/
theorem C13_lock_discipline (mGLClient : GameLiftClient) (mMatchMap : MatchMap) :
    lockDiscipline LockState.Free
      (MatchMaker.DoMatchMakingIteration mGLClient mMatchMap).2 = true ∧
    lockAfter LockState.Free (MatchMaker.DoMatchMakingIteration mGLClient mMatchMap).2
      = LockState.Free ∧
    ∀ pre e post, (MatchMaker.DoMatchMakingIteration mGLClient mMatchMap).2 = pre ++ e :: post →
      (e.isOutsideCall = true → lockAfter LockState.Free pre = LockState.Free) ∧
      (lockAfter LockState.Free pre = LockState.Read →
        e = Event.CopyPair ∨ e = Event.LeaveReadLock) ∧
      (lockAfter LockState.Free pre = LockState.Write →
        (∃ key, e = Event.Erase key) ∨ e = Event.LeaveWriteLock) := by
  have h := lockDiscipline_iteration mGLClient mMatchMap
  refine ⟨h, lockAfter_of_lockDiscipline _ _ h, fun pre e post hsplit => ?_⟩
  rw [hsplit] at h
  exact lockDiscipline_at pre e post _ h

/-! ## Scores -/

theorem eraseEntries_map {V : Type} (k : String) (f : V → V) :
    ∀ l : List (String × V),
      eraseEntries k (l.map (fun e => (e.1, f e.2)))
        = (eraseEntries k l).map (fun e => (e.1, f e.2))
  | [] => rfl
  | e :: rest => by
    by_cases h : k = e.1
    · simp only [List.map_cons, eraseEntries, if_pos h]
    · simp only [List.map_cons, eraseEntries, if_neg h, eraseEntries_map k f rest]

theorem withoutScores_erase (mMatchMap : MatchMap) (k : String) :
    withoutScores (mMatchMap.erase k) = (withoutScores mMatchMap).erase k :=
  StdMap.ext_entries (eraseEntries_map k PlayerSession.withoutScore mMatchMap.entries).symm

theorem keys_withoutScores (mMatchMap : MatchMap) :
    (withoutScores mMatchMap).entries.map Prod.fst = mMatchMap.entries.map Prod.fst := by
  simp [withoutScores, List.map_map, Function.comp_def]

theorem samplePair_withoutScores (mMatchMap : MatchMap) :
    MatchMaker.samplePair (withoutScores mMatchMap)
      = ((MatchMaker.samplePair mMatchMap).1.map PlayerSession.withoutScore,
         (MatchMaker.samplePair mMatchMap).2.map PlayerSession.withoutScore) := by
  obtain ⟨entries⟩ := mMatchMap
  match entries with
  | [] => rfl
  | [_] => rfl
  | (k₁, p₁) :: (k₂, p₂) :: rest =>
    rw [samplePair_of_cons_cons]
    exact samplePair_of_cons_cons

theorem notifications_withoutScores :
    ∀ trace : List Event,
      notifications (trace.map Event.withoutScores)
        = (notifications trace).map MatchInfo.withoutScore
  | [] => rfl
  | e :: rest => by
    have ih := notifications_withoutScores rest
    cases e <;>
      simp only [List.map_cons, Event.withoutScores, notifications, ih,
        MatchInfo.withoutScore]

theorem iteration_withoutScores (mGLClient₁ mGLClient₂ : GameLiftClient)
    (mMatchMap : MatchMap)
    (hgs : mGLClient₁.CreateGameSession MatchMaker.gameSessionRequest
      = mGLClient₂.CreateGameSession MatchMaker.gameSessionRequest) :
    withoutScores (MatchMaker.DoMatchMakingIteration mGLClient₁ mMatchMap).1
      = (MatchMaker.DoMatchMakingIteration mGLClient₂ (withoutScores mMatchMap)).1 ∧
    (MatchMaker.DoMatchMakingIteration mGLClient₁ mMatchMap).2.map Event.withoutScores
      = (MatchMaker.DoMatchMakingIteration mGLClient₂ (withoutScores mMatchMap)).2.map
          Event.withoutScores := by
  by_cases hsize : mMatchMap.size < 2
  · have hsize' : (withoutScores mMatchMap).size < 2 := by
      simpa [withoutScores, StdMap.size] using hsize
    rw [iteration_of_no_pair mGLClient₁ hsize, iteration_of_no_pair mGLClient₂ hsize']
    exact ⟨rfl, rfl⟩
  · obtain ⟨p₁, p₂, hs⟩ := samplePair_of_large (Nat.le_of_not_lt hsize)
    have hs' : MatchMaker.samplePair (withoutScores mMatchMap)
        = (some p₁.withoutScore, some p₂.withoutScore) := by
      rw [samplePair_withoutScores, hs]
      rfl
    by_cases h₁ : p₁.IsConnected = false
    · rw [iteration_of_first_stale mGLClient₁ hs h₁,
        iteration_of_first_stale mGLClient₂ hs' h₁]
      exact ⟨withoutScores_erase _ _, rfl⟩
    · have h₁' : p₁.IsConnected = true := by simpa using h₁
      by_cases h₂ : p₂.IsConnected = false
      · rw [iteration_of_second_stale mGLClient₁ hs h₁' h₂,
          iteration_of_second_stale mGLClient₂ hs' h₁' h₂]
        exact ⟨withoutScores_erase _ _, rfl⟩
      · have h₂' : p₂.IsConnected = true := by simpa using h₂
        have hqueue : withoutScores
            ((mMatchMap.erase p₁.GetPlayerName).erase p₂.GetPlayerName)
            = ((withoutScores mMatchMap).erase p₁.withoutScore.GetPlayerName).erase
                p₂.withoutScore.GetPlayerName := by
          rw [withoutScores_erase, withoutScores_erase]
          rfl
        cases hgs₁ : mGLClient₁.CreateGameSession MatchMaker.gameSessionRequest with
        | error exceptionName =>
          rw [iteration_of_session_refused mGLClient₁ hs h₁' h₂' hgs₁,
            iteration_of_session_refused mGLClient₂ hs' h₁' h₂' (hgs ▸ hgs₁)]
          exact ⟨hqueue, rfl⟩
        | ok gs =>
          rw [iteration_of_session_created mGLClient₁ hs h₁' h₂' hgs₁,
            iteration_of_session_created mGLClient₂ hs' h₁' h₂' (hgs ▸ hgs₁)]
          exact ⟨hqueue, rfl⟩

theorem scoreMap_of_request (player1 player2 : PlayerSession) (gsId : String) :
    (MatchMaker.playerSessionsRequest player1 player2 gsId).playerDataMap.find
        player2.GetPlayerName = some (toString player2.GetPlayerScore) ∧
    (player1.GetPlayerName ≠ player2.GetPlayerName →
      (MatchMaker.playerSessionsRequest player1 player2 gsId).playerDataMap.find
        player1.GetPlayerName = some (toString player1.GetPlayerScore)) ∧
    (∀ k, k ≠ player1.GetPlayerName → k ≠ player2.GetPlayerName →
      (MatchMaker.playerSessionsRequest player1 player2 gsId).playerDataMap.find k
        = none) := by
  refine ⟨?_, fun hne => ?_, fun k h₁ h₂ => ?_⟩ <;>
    simp only [MatchMaker.playerSessionsRequest, StdMap.find, StdMap.assign, StdMap.empty,
      findEntries_assignEntries, findEntries]
  · simp
  · simp [hne]
  · simp [h₁, h₂]

theorem createPlayerSessionsCalls_of_iteration (mGLClient : GameLiftClient)
    (mMatchMap : MatchMap) :
    ∀ req ∈ createPlayerSessionsCalls
        (MatchMaker.DoMatchMakingIteration mGLClient mMatchMap).2,
      ∃ p₁ p₂, MatchMaker.samplePair mMatchMap = (some p₁, some p₂) ∧
        req = MatchMaker.playerSessionsRequest p₁ p₂ req.gameSessionId := by
  by_cases hsize : mMatchMap.size < 2
  · rw [iteration_of_no_pair mGLClient hsize]
    simp [createPlayerSessionsCalls]
  · obtain ⟨p₁, p₂, hs⟩ := samplePair_of_large (Nat.le_of_not_lt hsize)
    by_cases h₁ : p₁.IsConnected = false
    · rw [iteration_of_first_stale mGLClient hs h₁]
      simp [createPlayerSessionsCalls]
    · have h₁' : p₁.IsConnected = true := by simpa using h₁
      by_cases h₂ : p₂.IsConnected = false
      · rw [iteration_of_second_stale mGLClient hs h₁' h₂]
        simp [createPlayerSessionsCalls]
      · have h₂' : p₂.IsConnected = true := by simpa using h₂
        cases hgs : mGLClient.CreateGameSession MatchMaker.gameSessionRequest with
        | error exceptionName =>
          rw [iteration_of_session_refused mGLClient hs h₁' h₂' hgs]
          simp [createPlayerSessionsCalls]
        | ok gs =>
          rw [iteration_of_session_created mGLClient hs h₁' h₂' hgs]
          intro req hreq
          simp only [createPlayerSessionsCalls, List.mem_singleton] at hreq
          exact ⟨p₁, p₂, hs, by rw [hreq]; rfl⟩

/-- C12: take two queues that are the same once the scores are blanked (same keys, same
session objects, names and connectivity) and two clients that answer `CreateGameSession`
alike.  One pass on each samples the same pair, sends the same notifications (same
recipients, port, address and session id), leaves the same keys queued, and the two traces
are the same up to scores.  The scores go into the score map of the `CreatePlayerSessions`
request only, which holds, under each of the two names, the decimal string of that player's
score, and nothing else. -/
theorem C12_scores_do_not_change_pairing (mGLClient₁ mGLClient₂ : GameLiftClient)
    (mMatchMap₁ mMatchMap₂ : MatchMap)
    (hsame : withoutScores mMatchMap₁ = withoutScores mMatchMap₂)
    (hgs : mGLClient₁.CreateGameSession MatchMaker.gameSessionRequest
      = mGLClient₂.CreateGameSession MatchMaker.gameSessionRequest) :
    ((MatchMaker.samplePair mMatchMap₁).1.map PlayerSession.withoutScore
        = (MatchMaker.samplePair mMatchMap₂).1.map PlayerSession.withoutScore ∧
      (MatchMaker.samplePair mMatchMap₁).2.map PlayerSession.withoutScore
        = (MatchMaker.samplePair mMatchMap₂).2.map PlayerSession.withoutScore) ∧
    (notifications (MatchMaker.DoMatchMakingIteration mGLClient₁ mMatchMap₁).2).map
        MatchInfo.withoutScore
      = (notifications (MatchMaker.DoMatchMakingIteration mGLClient₂ mMatchMap₂).2).map
          MatchInfo.withoutScore ∧
    (MatchMaker.DoMatchMakingIteration mGLClient₁ mMatchMap₁).1.entries.map Prod.fst
      = (MatchMaker.DoMatchMakingIteration mGLClient₂ mMatchMap₂).1.entries.map Prod.fst ∧
    (MatchMaker.DoMatchMakingIteration mGLClient₁ mMatchMap₁).2.map Event.withoutScores
      = (MatchMaker.DoMatchMakingIteration mGLClient₂ mMatchMap₂).2.map
          Event.withoutScores ∧
    (∀ req ∈ createPlayerSessionsCalls
        (MatchMaker.DoMatchMakingIteration mGLClient₁ mMatchMap₁).2,
      ∃ p₁ p₂, MatchMaker.samplePair mMatchMap₁ = (some p₁, some p₂) ∧
        req.playerDataMap.find p₂.GetPlayerName = some (toString p₂.GetPlayerScore) ∧
        (p₁.GetPlayerName ≠ p₂.GetPlayerName →
          req.playerDataMap.find p₁.GetPlayerName = some (toString p₁.GetPlayerScore)) ∧
        (∀ k, k ≠ p₁.GetPlayerName → k ≠ p₂.GetPlayerName →
          req.playerDataMap.find k = none)) := by
  obtain ⟨hqueue₁, htrace₁⟩ := iteration_withoutScores mGLClient₁ mGLClient₁ mMatchMap₁ rfl
  obtain ⟨hqueue₂, htrace₂⟩ := iteration_withoutScores mGLClient₂ mGLClient₁ mMatchMap₂ hgs.symm
  have htrace : (MatchMaker.DoMatchMakingIteration mGLClient₁ mMatchMap₁).2.map
      Event.withoutScores
      = (MatchMaker.DoMatchMakingIteration mGLClient₂ mMatchMap₂).2.map
          Event.withoutScores := by
    rw [htrace₁, htrace₂, hsame]
  have hqueue : withoutScores (MatchMaker.DoMatchMakingIteration mGLClient₁ mMatchMap₁).1
      = withoutScores (MatchMaker.DoMatchMakingIteration mGLClient₂ mMatchMap₂).1 := by
    rw [hqueue₁, hqueue₂, hsame]
  have hsample := samplePair_withoutScores mMatchMap₁
  rw [hsame, samplePair_withoutScores mMatchMap₂] at hsample
  simp only [Prod.mk.injEq] at hsample
  refine ⟨⟨hsample.1.symm, hsample.2.symm⟩, ?_, ?_, htrace, ?_⟩
  · rw [← notifications_withoutScores, ← notifications_withoutScores, htrace]
  · rw [← keys_withoutScores, ← keys_withoutScores
      (MatchMaker.DoMatchMakingIteration mGLClient₂ mMatchMap₂).1, hqueue]
  · intro req hreq
    obtain ⟨p₁, p₂, hs, hrequest⟩ :=
      createPlayerSessionsCalls_of_iteration mGLClient₁ mMatchMap₁ req hreq
    refine ⟨p₁, p₂, hs, ?_⟩
    rw [hrequest]
    exact scoreMap_of_request p₁ p₂ req.gameSessionId

/-- C12 at the queue holding alice and bob and at the same queue with other scores: the same
notifications go out. -/
theorem C12_scores_do_not_change_pairing_witness :
    (notifications (MatchMaker.DoMatchMakingIteration glBothOk aliceAndBob).2).map
        MatchInfo.withoutScore
      = (notifications (MatchMaker.DoMatchMakingIteration glBothOk aliceAndBobRescored).2).map
          MatchInfo.withoutScore :=
  (C12_scores_do_not_change_pairing glBothOk glBothOk aliceAndBob aliceAndBobRescored
    (by decide) rfl).2.1

/-! ## `PlayerLogin` -/

theorem utf8Len_of_one_byte :
    ∀ cs : List Char, (∀ c ∈ cs, c.utf8Size = 1) → String.utf8Len cs = cs.length
  | [], _ => rfl
  | c :: cs, h => by
    rw [String.utf8Len_cons, utf8Len_of_one_byte cs (fun d hd => h d (List.mem_cons_of_mem _ hd)),
      h c (List.mem_cons_self _ _), List.length_cons]

theorem size_of_one_byte (s : String) (h : ∀ c ∈ s.toList, c.utf8Size = 1) :
    s.utf8ByteSize = s.length := by
  obtain ⟨cs⟩ := s
  exact utf8Len_of_one_byte cs h

/-- C16: `PlayerLogin(psess, playerName, playerPass)` returns false exactly when the name or
the password has size below 3, and then leaves the session as it is; otherwise it returns
true and the session has the name `playerName` and the score 98 (nothing else of it
changes).  Flag and session depend on the password through its size only.  The size is
`std::string::size()`, the number of `char`s; for strings of one-byte characters it is the
number of characters. -/
theorem C16_PlayerLogin (psess : PlayerSession) (playerName playerPass : String) :
    ((MatchMaker.PlayerLogin psess playerName playerPass).1 = false ↔
        playerName.utf8ByteSize < 3 ∨ playerPass.utf8ByteSize < 3) ∧
    ((MatchMaker.PlayerLogin psess playerName playerPass).1 = false →
        (MatchMaker.PlayerLogin psess playerName playerPass).2 = psess) ∧
    ((MatchMaker.PlayerLogin psess playerName playerPass).1 = true →
        (MatchMaker.PlayerLogin psess playerName playerPass).2
          = ⟨psess.id, playerName, 98, psess.mConnected⟩ ∧
        (MatchMaker.PlayerLogin psess playerName playerPass).2.GetPlayerName = playerName ∧
        (MatchMaker.PlayerLogin psess playerName playerPass).2.GetPlayerScore = 98) ∧
    (∀ otherPass : String, otherPass.utf8ByteSize = playerPass.utf8ByteSize →
        MatchMaker.PlayerLogin psess playerName otherPass
          = MatchMaker.PlayerLogin psess playerName playerPass) ∧
    ((∀ c ∈ playerName.toList, c.utf8Size = 1) → (∀ c ∈ playerPass.toList, c.utf8Size = 1) →
        ((MatchMaker.PlayerLogin psess playerName playerPass).1 = false ↔
          playerName.length < 3 ∨ playerPass.length < 3)) := by
  have hflag : (MatchMaker.PlayerLogin psess playerName playerPass).1 = false ↔
      playerName.utf8ByteSize < 3 ∨ playerPass.utf8ByteSize < 3 := by
    by_cases h : playerName.utf8ByteSize < 3 ∨ playerPass.utf8ByteSize < 3
    · simp only [MatchMaker.PlayerLogin, if_pos h]
      exact ⟨fun _ => h, fun _ => trivial⟩
    · simp only [MatchMaker.PlayerLogin, if_neg h]
      exact ⟨fun hfalse => Bool.noConfusion hfalse, fun hsmall => absurd hsmall h⟩
  refine ⟨hflag, ?_, ?_, ?_, ?_⟩
  · intro hfalse
    have h := hflag.1 hfalse
    simp only [MatchMaker.PlayerLogin, if_pos h]
  · intro htrue
    have h : ¬ (playerName.utf8ByteSize < 3 ∨ playerPass.utf8ByteSize < 3) := by
      intro hsmall
      rw [hflag.2 hsmall] at htrue
      cases htrue
    simp only [MatchMaker.PlayerLogin, if_neg h]
    exact ⟨rfl, rfl, rfl⟩
  · intro otherPass hsize
    simp only [MatchMaker.PlayerLogin, hsize]
  · intro hname hpass
    rw [hflag, size_of_one_byte playerName hname, size_of_one_byte playerPass hpass]

end GomokuMatchMaker
